import Mathlib

/-!
Verification development for the `engine_components` repository excerpt:
a shallow embedding in Lean 4 of `SimpleRenderer` (src/unnamed/part_000)
and `IfcPropertiesManager`
(src/packages/core/src/ifc/IfcPropertiesManager/index.ts), together with
theorems settling the frozen claims about them.

Modelling conventions:
- JavaScript objects used as string-keyed records are embedded as
  association lists with JS-object update semantics (`aget`/`aset`/`adel`).
- JS `Set<number>` is embedded as a duplicate-free list that preserves
  insertion order (`setAdd`), matching JS Set iteration order.
- Event objects are identified by numeric ids allocated from a counter;
  `Event.trigger` is embedded as appending `(event id, payload)` to a
  trigger log in the state, so "the event was triggered once with v" is
  the statement that the log grew by exactly that entry.
- JS numbers that only pass through the code unchanged are embedded as
  `Int`; express IDs and the `maxExpressID` counter, which are integer
  ids, are embedded as `Nat`.
- `async`/`await` sequencing in the source is purely sequential state
  threading here; exceptions (`throw`) are embedded with `Except`.
-/

/-- A primitive JavaScript value as it appears in the manager's data flow
(strings, numbers, booleans). -/
inductive JsVal where
  | str (s : String)
  | num (n : Int)
  | bool (b : Bool)
deriving DecidableEq, Repr

/-- A wrapped typed IFC value, as produced by `new WEBIFC[schema].IfcLabel(x)`
and the other schema constructors: it records the schema namespace it was
built from, the IFC type name, and the wrapped primitive value. -/
structure TypedValue where
  schema : String
  ifcType : String
  value : JsVal
deriving DecidableEq, Repr

/-- `new WEBIFC.Handle(expressID)`: a reference-by-express-ID object. -/
structure Handle where
  value : Nat
deriving DecidableEq, Repr

/-- An element of an entity reference list such as `HasProperties` or
`RelatedObjects`. In JS such a list holds `Handle` objects, but the code
also compares its elements against raw numbers
(`pset.HasProperties.includes(expressID)`); a raw number and a `Handle`
object are never `===`-equal in JS, which the two distinct constructors
capture. -/
inductive PropRef where
  | handle (value : Nat)
  | rawNum (n : Nat)
deriving DecidableEq, Repr

/-- A non-array entity attribute object, e.g. `{ type: t, value: v }`.
After `setAttributeListener` installs `Object.defineProperty` accessors on
it, reads of `.value` go through the getter (returning the backing field
`_value`) and writes go through the setter (storing into `_value` and
triggering the listener event). `listener` is the installed event id, if
any; `backing` is `_value`; `rawValue` is the plain data property used
before any accessor is installed. -/
structure AttributeObj where
  vtype : String := ""
  rawValue : Option JsVal := none
  listener : Option Nat := none
  backing : Option JsVal := none
deriving DecidableEq, Repr

/-- The value of `entity[attributeName]` as the listener code sees it:
an array, `null`/missing handled by the caller, or an attribute object. -/
inductive AttrVal where
  | arr (xs : List PropRef)
  | nullv
  | obj (a : AttributeObj)
deriving DecidableEq, Repr

/-- IFC entity data as stored in a model's property table: the fields of
`Record<string, any>` entities that the manager reads or writes. `attrs`
carries the dynamically-named attributes accessed as `entity[attributeName]`
by the attribute-listener code. -/
structure Entity where
  expressID : Nat := 0
  type : Nat := 0
  GlobalId : Option TypedValue := none
  OwnerHistory : Option Handle := none
  Name : Option TypedValue := none
  Description : Option TypedValue := none
  HasProperties : List PropRef := []
  RelatedObjects : List PropRef := []
  RelatingPropertyDefinition : Option Handle := none
  NominalValue : Option TypedValue := none
  attrs : List (String × AttrVal) := []
deriving DecidableEq, Repr

/-- web-ifc numeric type code `WEBIFC.IFCPROPERTYSET`. -/
def IFCPROPERTYSET : Nat := 1451395588

/-- web-ifc numeric type code `WEBIFC.IFCOWNERHISTORY`. -/
def IFCOWNERHISTORY : Nat := 1207048766

/-- web-ifc numeric type code `WEBIFC.IFCRELDEFINESBYPROPERTIES`. -/
def IFCRELDEFINESBYPROPERTIES : Nat := 4186316022

/-- web-ifc numeric type code `WEBIFC.IFCPROPERTYSINGLEVALUE`. -/
def IFCPROPERTYSINGLEVALUE : Nat := 3650150729

/-- Lookup in a JS-object-like association list. -/
def aget {α β : Type} [DecidableEq α] (l : List (α × β)) (k : α) : Option β :=
  match l with
  | [] => none
  | (k', v) :: rest => if k' = k then some v else aget rest k

/-- Key update in a JS-object-like association list: replaces the value in
place if the key exists, appends otherwise. -/
def aset {α β : Type} [DecidableEq α] (l : List (α × β)) (k : α) (v : β) :
    List (α × β) :=
  match l with
  | [] => [(k, v)]
  | (k', v') :: rest =>
    if k' = k then (k, v) :: rest else (k', v') :: aset rest k v

/-- Key deletion in a JS-object-like association list. -/
def adel {α β : Type} [DecidableEq α] (l : List (α × β)) (k : α) :
    List (α × β) :=
  match l with
  | [] => []
  | (k', v') :: rest =>
    if k' = k then adel rest k else (k', v') :: adel rest k

theorem aget_aset_self {α β : Type} [DecidableEq α]
    (l : List (α × β)) (k : α) (v : β) : aget (aset l k v) k = some v := by
  induction l with
  | nil => simp [aget, aset]
  | cons hd tl ih =>
    by_cases h : hd.1 = k
    · simp [aget, aset, h]
    · simp [aget, aset, h, ih]

theorem aget_aset_ne {α β : Type} [DecidableEq α]
    (l : List (α × β)) (k k' : α) (v : β) (h : k' ≠ k) :
    aget (aset l k v) k' = aget l k' := by
  have hk : k ≠ k' := Ne.symm h
  induction l with
  | nil => simp [aget, aset, hk]
  | cons hd tl ih =>
    by_cases hh : hd.1 = k
    · have h2 : hd.1 ≠ k' := by rw [hh]; exact hk
      simp [aget, aset, hh, hk, h2]
    · simp [aget, aset, hh, ih]

theorem aget_adel_self {α β : Type} [DecidableEq α]
    (l : List (α × β)) (k : α) : aget (adel l k) k = none := by
  induction l with
  | nil => simp [aget, adel]
  | cons hd tl ih =>
    by_cases h : hd.1 = k
    · simp [adel, h, ih]
    · simp [aget, adel, h, ih]

theorem aget_adel_ne {α β : Type} [DecidableEq α]
    (l : List (α × β)) (k k' : α) (h : k' ≠ k) :
    aget (adel l k) k' = aget l k' := by
  have hk : k ≠ k' := Ne.symm h
  induction l with
  | nil => simp [adel]
  | cons hd tl ih =>
    by_cases hh : hd.1 = k
    · have h2 : hd.1 ≠ k' := by rw [hh]; exact hk
      simp [aget, adel, hh, h2, hk, ih]
    · simp [aget, adel, hh, ih]

/-- `model.ifcMetadata` as used by the manager: the IFC schema tag and the
running maximum express ID. -/
structure IfcMetadata where
  schema : Option String
  maxExpressID : Nat
deriving DecidableEq, Repr

/-- The slice of a `FragmentsGroup` model that the manager reads and
writes: its uuid, its `ifcMetadata`, and its per-express-ID property
store. The external fragments library's `getProperties` /
`setProperties` / `getAllPropertiesOfType` are embedded below as the
key-value store operations their documentation describes. -/
structure FragmentsGroup where
  uuid : String
  ifcMetadata : IfcMetadata
  properties : List (Nat × Entity)
deriving DecidableEq, Repr

/-- `model.getProperties(expressID)`: the stored entity data, if any. -/
def FragmentsGroup.getProperties (m : FragmentsGroup) (expressID : Nat) :
    Option Entity :=
  aget m.properties expressID

/-- `model.setProperties(expressID, data)`: stores `data` under
`expressID`, or deletes the entry when `data` is `null`. -/
def FragmentsGroup.setProperties (m : FragmentsGroup) (expressID : Nat)
    (data : Option Entity) : FragmentsGroup :=
  match data with
  | none => { m with properties := adel m.properties expressID }
  | some e => { m with properties := aset m.properties expressID e }

/-- In-place mutation of an entity object previously obtained from
`getProperties` (e.g. `pset.HasProperties.push(...)`): since
`getProperties` hands out a reference into the store, the mutation is
visible in the model without a `setProperties` call. -/
def FragmentsGroup.mutateEntity (m : FragmentsGroup) (expressID : Nat)
    (e : Entity) : FragmentsGroup :=
  { m with properties := aset m.properties expressID e }

/-- `model.getAllPropertiesOfType(type)`: all stored entities of the given
IFC type code, or `null` when there are none. -/
def FragmentsGroup.getAllPropertiesOfType (m : FragmentsGroup) (t : Nat) :
    Option (List (Nat × Entity)) :=
  let l := m.properties.filter (fun p => p.2.type = t)
  if l.isEmpty then none else some l

/-- The mutable state of an `IfcPropertiesManager` instance, together with
logs of the events it has triggered.

`changeMap` maps model uuids to the insertion-ordered set of changed
express IDs; `attributeListeners` maps model uuid, then express ID, then
attribute name, to the id of the listener `Event`. `nextEventId` allocates
fresh `Event` identities.

Modelled from the spec: the `Event` class of the core package is not part
of the excerpt; per the spec it carries handlers and `trigger(v)` invokes
them with `v`. A trigger is embedded as appending the payload to the
corresponding log below, so the logs are the observable trigger history. -/
structure IfcPropertiesManager where
  changeMap : List (String × List Nat) := []
  attributeListeners : List (String × List (Nat × List (String × Nat))) := []
  nextEventId : Nat := 0
  onDataChangedLog : List (String × Nat) := []
  onPsetRemovedLog : List (String × Nat) := []
  onElementToPsetLog : List (String × Nat × Nat) := []
  onPropToPsetLog : List (String × Nat × Nat) := []
  attrEventLog : List (Nat × JsVal) := []
deriving DecidableEq, Repr

/-- Insertion into a JS `Set` modelled as an insertion-ordered
duplicate-free list: `s.add(n)` keeps the set unchanged when `n` is
already present and appends it otherwise. -/
def setAdd (s : List Nat) (n : Nat) : List Nat :=
  if s.contains n then s else s ++ [n]

/-- The change set recorded for a model uuid (empty when absent). -/
def IfcPropertiesManager.changesOf (self : IfcPropertiesManager)
    (uuid : String) : List Nat :=
  (aget self.changeMap uuid).getD []

/-- `registerChange(model, ...expressID)`: ensures a change set exists for
the model, adds each id to it, and triggers `onDataChanged` once per id. -/
def IfcPropertiesManager.registerChange (self : IfcPropertiesManager)
    (model : FragmentsGroup) (expressID : List Nat) : IfcPropertiesManager :=
  let base := (aget self.changeMap model.uuid).getD []
  let final := expressID.foldl setAdd base
  let logAdd := expressID.map (fun id => (model.uuid, id))
  { self with
    changeMap := aset self.changeMap model.uuid final
    onDataChangedLog := self.onDataChangedLog ++ logAdd }

/-- `dispose()`: clears the attribute listeners and the whole change map
(the event `reset()` calls clear handlers, not the trigger history). -/
def IfcPropertiesManager.dispose (self : IfcPropertiesManager) :
    IfcPropertiesManager :=
  { self with attributeListeners := [], changeMap := [] }

/-- `setData(model, ...dataToSave)`: for each record, skips it when its
`expressID` is falsy (0), otherwise stores it in the model and registers
the change. -/
def IfcPropertiesManager.setData (self : IfcPropertiesManager)
    (model : FragmentsGroup) (dataToSave : List Entity) :
    FragmentsGroup × IfcPropertiesManager :=
  match dataToSave with
  | [] => (model, self)
  | data :: rest =>
    if data.expressID = 0 then self.setData model rest
    else
      let m' := model.setProperties data.expressID (some data)
      (self.registerChange m' [data.expressID]).setData m' rest

/-- `IfcPropertiesManager.getIFCSchema(model)`: the model's schema, or a
thrown error when it is missing. -/
def IfcPropertiesManager.getIFCSchema (model : FragmentsGroup) :
    Except String String :=
  match model.ifcMetadata.schema with
  | none => Except.error "IFC Schema not found"
  | some s => Except.ok s

/-- `getOwnerHistory(model)`: the first stored `IfcOwnerHistory` entity and
a `Handle` to its express ID; throws when the model has none. -/
def IfcPropertiesManager.getOwnerHistory (model : FragmentsGroup) :
    Except String (Entity × Handle) :=
  match model.getAllPropertiesOfType IFCOWNERHISTORY with
  | none => Except.error "No OwnerHistory was found."
  | some l =>
    match l with
    | [] => Except.error "No OwnerHistory was found."
    | (_, ownerHistory) :: _ =>
      Except.ok (ownerHistory, Handle.mk ownerHistory.expressID)

/-- `increaseMaxID(model)`: increments `model.ifcMetadata.maxExpressID`
and returns the incremented value, together with the updated model. -/
def IfcPropertiesManager.increaseMaxID (model : FragmentsGroup) :
    FragmentsGroup × Nat :=
  let m' :=
    { model with
      ifcMetadata :=
        { model.ifcMetadata with
          maxExpressID := model.ifcMetadata.maxExpressID + 1 } }
  (m', m'.ifcMetadata.maxExpressID)

/-- `newGUID(model)` builds `new WEBIFC[schema].IfcGloballyUniqueId(UUID.create())`.
`UUID.create()` is a fresh random GUID string; the embedding takes the
generated string as an explicit parameter. -/
def IfcPropertiesManager.newGUID (schema guid : String) : TypedValue :=
  TypedValue.mk schema "IfcGloballyUniqueId" (JsVal.str guid)

/-- `newPset(model, name, description?)`: requires the model's schema and
an OwnerHistory entity; builds a new `IfcPropertySet` (given name,
optional description, empty `HasProperties`) and a new
`IfcRelDefinesByProperties` whose `RelatingPropertyDefinition` is a handle
to the Pset, assigns each a fresh express ID from `increaseMaxID`, stores
both via `setData`, and resolves with the pair. `g1`/`g2` are the two
GUID strings produced by `UUID.create()`. -/
def IfcPropertiesManager.newPset (self : IfcPropertiesManager)
    (model : FragmentsGroup) (name : String) (description : Option String)
    (g1 g2 : String) :
    Except String (FragmentsGroup × IfcPropertiesManager × Entity × Entity) :=
  match IfcPropertiesManager.getIFCSchema model with
  | Except.error e => Except.error e
  | Except.ok schema =>
    match IfcPropertiesManager.getOwnerHistory model with
    | Except.error e => Except.error e
    | Except.ok (_, ownerHistoryHandle) =>
      let psetGlobalId := IfcPropertiesManager.newGUID schema g1
      let psetName := TypedValue.mk schema "IfcLabel" (JsVal.str name)
      let psetDescription :=
        description.map (fun d => TypedValue.mk schema "IfcText" (JsVal.str d))
      let pset0 : Entity :=
        { type := IFCPROPERTYSET
          GlobalId := some psetGlobalId
          OwnerHistory := some ownerHistoryHandle
          Name := some psetName
          Description := psetDescription
          HasProperties := [] }
      let step1 := IfcPropertiesManager.increaseMaxID model
      let pset := { pset0 with expressID := step1.2 }
      let relGlobalId := IfcPropertiesManager.newGUID schema g2
      let rel0 : Entity :=
        { type := IFCRELDEFINESBYPROPERTIES
          GlobalId := some relGlobalId
          OwnerHistory := some ownerHistoryHandle
          Name := none
          Description := none
          RelatedObjects := []
          RelatingPropertyDefinition := some (Handle.mk pset.expressID) }
      let step2 := IfcPropertiesManager.increaseMaxID step1.1
      let rel := { rel0 with expressID := step2.2 }
      let saved := self.setData step2.1 [pset, rel]
      Except.ok (saved.1, saved.2, pset, rel)

/-- `newSingleProperty(model, type, name, value)`: requires the model's
schema; builds an `IfcPropertySingleValue` whose `Name` wraps `name` as an
`IfcIdentifier` and whose `NominalValue` wraps `value` in the given IFC
type, assigns it a fresh express ID, stores it via `setData`, and returns
it. -/
def IfcPropertiesManager.newSingleProperty (self : IfcPropertiesManager)
    (model : FragmentsGroup) (type : String) (name : String) (value : JsVal) :
    Except String (FragmentsGroup × IfcPropertiesManager × Entity) :=
  match IfcPropertiesManager.getIFCSchema model with
  | Except.error e => Except.error e
  | Except.ok schema =>
    let propName := TypedValue.mk schema "IfcIdentifier" (JsVal.str name)
    let propValue := TypedValue.mk schema type value
    let prop0 : Entity :=
      { type := IFCPROPERTYSINGLEVALUE
        Name := some propName
        Description := none
        NominalValue := some propValue }
    let step := IfcPropertiesManager.increaseMaxID model
    let prop := { prop0 with expressID := step.2 }
    let saved := self.setData step.1 [prop]
    Except.ok (saved.1, saved.2, prop)

/-- The string property types accepted by `newSingleStringProperty`. -/
inductive StringPropTypes where
  | ifcText
  | ifcLabel
  | ifcIdentifier
deriving DecidableEq, Repr

/-- The IFC type name denoted by a `StringPropTypes` member. -/
def StringPropTypes.name : StringPropTypes → String
  | StringPropTypes.ifcText => "IfcText"
  | StringPropTypes.ifcLabel => "IfcLabel"
  | StringPropTypes.ifcIdentifier => "IfcIdentifier"

/-- The numeric property types accepted by `newSingleNumericProperty`. -/
inductive NumericPropTypes where
  | ifcInteger
  | ifcReal
deriving DecidableEq, Repr

/-- The IFC type name denoted by a `NumericPropTypes` member. -/
def NumericPropTypes.name : NumericPropTypes → String
  | NumericPropTypes.ifcInteger => "IfcInteger"
  | NumericPropTypes.ifcReal => "IfcReal"

/-- The boolean property types accepted by `newSingleBooleanProperty`. -/
inductive BooleanPropTypes where
  | ifcBoolean
  | ifcLogical
deriving DecidableEq, Repr

/-- The IFC type name denoted by a `BooleanPropTypes` member. -/
def BooleanPropTypes.name : BooleanPropTypes → String
  | BooleanPropTypes.ifcBoolean => "IfcBoolean"
  | BooleanPropTypes.ifcLogical => "IfcLogical"

/-- `newSingleStringProperty`: delegates to `newSingleProperty`. -/
def IfcPropertiesManager.newSingleStringProperty
    (self : IfcPropertiesManager) (model : FragmentsGroup)
    (type : StringPropTypes) (name : String) (value : String) :
    Except String (FragmentsGroup × IfcPropertiesManager × Entity) :=
  self.newSingleProperty model type.name name (JsVal.str value)

/-- `newSingleNumericProperty`: delegates to `newSingleProperty`. -/
def IfcPropertiesManager.newSingleNumericProperty
    (self : IfcPropertiesManager) (model : FragmentsGroup)
    (type : NumericPropTypes) (name : String) (value : Int) :
    Except String (FragmentsGroup × IfcPropertiesManager × Entity) :=
  self.newSingleProperty model type.name name (JsVal.num value)

/-- `newSingleBooleanProperty`: delegates to `newSingleProperty`. -/
def IfcPropertiesManager.newSingleBooleanProperty
    (self : IfcPropertiesManager) (model : FragmentsGroup)
    (type : BooleanPropTypes) (name : String) (value : Bool) :
    Except String (FragmentsGroup × IfcPropertiesManager × Entity) :=
  self.newSingleProperty model type.name name (JsVal.bool value)

/-- Modelled from the spec: `IfcPropertiesUtils.getPsetRel` (from the
`Utils` module, which is not part of the excerpt) returns the express ID
of the `IfcRelDefinesByProperties` relation whose
`RelatingPropertyDefinition` references the given Pset, or `null` when the
model holds no such relation. -/
def IfcPropertiesUtils.getPsetRel (model : FragmentsGroup) (psetID : Nat) :
    Option Nat :=
  (model.properties.find? (fun p =>
    p.2.type = IFCRELDEFINESBYPROPERTIES &&
      p.2.RelatingPropertyDefinition = some (Handle.mk psetID))).map
    (fun p => p.1)

/-- `propHandle.value` for an element of `HasProperties`: defined for
`Handle` objects; reading `.value` of a raw number yields `undefined`. -/
def PropRef.valueOf : PropRef → Option Nat
  | PropRef.handle v => some v
  | PropRef.rawNum _ => none

/-- One iteration of `removePset`'s main loop, for a single `expressID`:
skips entities that are not `IfcPropertySet`s; otherwise deletes the
Pset's relation (registering that change), deletes each entity referenced
by `HasProperties`, deletes the Pset itself, triggers `onPsetRemoved`,
and registers the Pset's change. -/
def IfcPropertiesManager.removePsetOne (self : IfcPropertiesManager)
    (model : FragmentsGroup) (expressID : Nat) :
    FragmentsGroup × IfcPropertiesManager :=
  match model.getProperties expressID with
  | none => (model, self)
  | some pset =>
    if pset.type = IFCPROPERTYSET then
      let relID := IfcPropertiesUtils.getPsetRel model expressID
      let afterRel :=
        match relID with
        | some rid =>
          (model.setProperties rid none, self.registerChange model [rid])
        | none => (model, self)
      let afterProps :=
        pset.HasProperties.foldl
          (fun m propHandle =>
            match propHandle.valueOf with
            | some v => m.setProperties v none
            | none => m)
          afterRel.1
      let afterPset := afterProps.setProperties expressID none
      let selfTriggered :=
        { afterRel.2 with
          onPsetRemovedLog :=
            afterRel.2.onPsetRemovedLog ++ [(model.uuid, expressID)] }
      (afterPset, selfTriggered.registerChange model [expressID])
    else (model, self)

/-- `removePset(model, ...psetID)`: applies `removePsetOne` to each id in
order. -/
def IfcPropertiesManager.removePset (self : IfcPropertiesManager)
    (model : FragmentsGroup) (psetID : List Nat) :
    FragmentsGroup × IfcPropertiesManager :=
  match psetID with
  | [] => (model, self)
  | id :: rest =>
    let r := self.removePsetOne model id
    r.2.removePset r.1 rest

/-- `removePsetProp(model, psetID, propID)`: when both the Pset and the
property exist and the Pset is an `IfcPropertySet`, filters out of
`HasProperties` every handle whose `.value` equals `propID` (the filter
keeps raw-number elements, whose `.value` is `undefined`), deletes the
property, and registers both ids. -/
def IfcPropertiesManager.removePsetProp (self : IfcPropertiesManager)
    (model : FragmentsGroup) (psetID propID : Nat) :
    FragmentsGroup × IfcPropertiesManager :=
  match model.getProperties psetID, model.getProperties propID with
  | some pset, some _ =>
    if pset.type = IFCPROPERTYSET then
      let pset' :=
        { pset with
          HasProperties :=
            pset.HasProperties.filter (fun handle =>
              match handle with
              | PropRef.handle v => v ≠ propID
              | PropRef.rawNum _ => true) }
      let m1 := model.mutateEntity psetID pset'
      let m2 := m1.setProperties propID none
      (m2, self.registerChange model [psetID, propID])
    else (model, self)
  | _, _ => (model, self)

/-- `addElementToPset(model, psetID, ...elementID)`: finds the Pset's
relation via `getPsetRel`; when it and its entity exist, pushes a handle
for each element onto `RelatedObjects` (triggering `onElementToPset` per
element) and registers the Pset's id — not the relation's — as changed. -/
def IfcPropertiesManager.addElementToPset (self : IfcPropertiesManager)
    (model : FragmentsGroup) (psetID : Nat) (elementID : List Nat) :
    FragmentsGroup × IfcPropertiesManager :=
  match IfcPropertiesUtils.getPsetRel model psetID with
  | none => (model, self)
  | some relID =>
    match model.getProperties relID with
    | none => (model, self)
    | some rel =>
      let pushed :=
        elementID.foldl
          (fun (acc : Entity × IfcPropertiesManager) expressID =>
            ({ acc.1 with
               RelatedObjects :=
                 acc.1.RelatedObjects ++ [PropRef.handle expressID] },
             { acc.2 with
               onElementToPsetLog :=
                 acc.2.onElementToPsetLog ++
                   [(model.uuid, psetID, expressID)] }))
          (rel, self)
      let m1 := model.mutateEntity relID pushed.1
      (m1, pushed.2.registerChange model [psetID])

/-- `addPropToPset(model, psetID, ...propID)`: when the Pset exists, for
each given id the code first checks `pset.HasProperties.includes(expressID)`
— a strict-equality comparison of the raw number against the stored
elements — and skips the id when it is found; otherwise it pushes a fresh
handle and triggers `onPropToPset`; finally it registers the Pset's id. -/
def IfcPropertiesManager.addPropToPset (self : IfcPropertiesManager)
    (model : FragmentsGroup) (psetID : Nat) (propID : List Nat) :
    FragmentsGroup × IfcPropertiesManager :=
  match model.getProperties psetID with
  | none => (model, self)
  | some pset =>
    let pushed :=
      propID.foldl
        (fun (acc : Entity × IfcPropertiesManager) expressID =>
          if acc.1.HasProperties.contains (PropRef.rawNum expressID) then acc
          else
            ({ acc.1 with
               HasProperties :=
                 acc.1.HasProperties ++ [PropRef.handle expressID] },
             { acc.2 with
               onPropToPsetLog :=
                 acc.2.onPropToPsetLog ++ [(model.uuid, psetID, expressID)] }))
        (pset, self)
    let m1 := model.mutateEntity psetID pushed.1
    (m1, pushed.2.registerChange model [psetID])

/-- The registered listener event for `(uuid, expressID, attributeName)`,
if any: `attributeListeners[uuid][expressID][attributeName]`. -/
def IfcPropertiesManager.lookupListener (self : IfcPropertiesManager)
    (uuid : String) (expressID : Nat) (attributeName : String) : Option Nat :=
  match aget self.attributeListeners uuid with
  | none => none
  | some modelMap =>
    match aget modelMap expressID with
    | none => none
    | some entityMap => aget entityMap attributeName

/-- The value read from `entity[attributeName].value`: through the
installed getter (the `_value` backing field) once accessors are in place,
through the plain data property before that. -/
def AttributeObj.observedValue (a : AttributeObj) : Option JsVal :=
  match a.listener with
  | some _ => a.backing
  | none => a.rawValue

/-- The observable value of `model.getProperties(expressID)[attributeName].value`. -/
def attrValue (model : FragmentsGroup) (expressID : Nat)
    (attributeName : String) : Option JsVal :=
  match model.getProperties expressID with
  | none => none
  | some entity =>
    match aget entity.attrs attributeName with
    | some (AttrVal.obj a) => a.observedValue
    | _ => none

/-- The semantics of the JS assignment
`model.getProperties(expressID)[attributeName].value = v` after the entity
exists: through the installed setter it stores `v` into the backing field
and triggers the listener event with `v`; without accessors it writes the
plain data property and triggers nothing. Missing entities or non-object
attributes make the assignment a no-op on the embedded state. -/
def assignAttr (model : FragmentsGroup) (self : IfcPropertiesManager)
    (expressID : Nat) (attributeName : String) (v : JsVal) :
    FragmentsGroup × IfcPropertiesManager :=
  match model.getProperties expressID with
  | none => (model, self)
  | some entity =>
    match aget entity.attrs attributeName with
    | some (AttrVal.obj a) =>
      match a.listener with
      | some eventId =>
        let a' := { a with backing := some v }
        let entity' :=
          { entity with attrs := aset entity.attrs attributeName (AttrVal.obj a') }
        (model.mutateEntity expressID entity',
         { self with attrEventLog := self.attrEventLog ++ [(eventId, v)] })
      | none =>
        let a' := { a with rawValue := some v }
        let entity' :=
          { entity with attrs := aset entity.attrs attributeName (AttrVal.obj a') }
        (model.mutateEntity expressID entity', self)
    | _ => (model, self)

/-- The fresh-registration path of `setAttributeListener`, taken when no
listener is registered yet: reads the entity (throwing when missing),
rejects array/null attributes and attributes without a `.value`, installs
`Object.defineProperty` accessors backed by `_value`, re-assigns the
existing value through the new setter (which stores it and triggers the
fresh event once), records the event in `attributeListeners`, and returns
it. Re-defining accessors on an attribute that already has them (possible
after `dispose` cleared the listener map) throws a `TypeError`, since the
first `defineProperty` left the property non-configurable. -/
def IfcPropertiesManager.installListener (self1 : IfcPropertiesManager)
    (model : FragmentsGroup) (expressID : Nat) (attributeName : String) :
    Except String (Nat × FragmentsGroup × IfcPropertiesManager) :=
  match model.getProperties expressID with
    | none => Except.error "Entity with the given expressID does not exist."
    | some entity =>
      match aget entity.attrs attributeName with
      | none => Except.error "Attribute is array or null, no listener possible."
      | some AttrVal.nullv =>
        Except.error "Attribute is array or null, no listener possible."
      | some (AttrVal.arr _) =>
        Except.error "Attribute is array or null, no listener possible."
      | some (AttrVal.obj a) =>
        match a.observedValue with
        | none => Except.error "Attribute has a badly defined handle."
        | some value =>
          match a.listener with
          | some _ => Except.error "TypeError: cannot redefine property."
          | none =>
            let event := self1.nextEventId
            let self2 := { self1 with nextEventId := event + 1 }
            let a1 := { a with listener := some event, backing := none }
            let a2 := { a1 with backing := some value }
            let self3 :=
              { self2 with attrEventLog := self2.attrEventLog ++ [(event, value)] }
            let entity' :=
              { entity with
                attrs := aset entity.attrs attributeName (AttrVal.obj a2) }
            let model' := model.mutateEntity expressID entity'
            let modelMap := (aget self3.attributeListeners model.uuid).getD []
            let entityMap := (aget modelMap expressID).getD []
            let entityMap' := aset entityMap attributeName event
            let modelMap' := aset modelMap expressID entityMap'
            let self4 :=
              { self3 with
                attributeListeners :=
                  aset self3.attributeListeners model.uuid modelMap' }
            Except.ok (event, model', self4)

/-- `setAttributeListener(model, expressID, attributeName)`: ensures the
model's listener map exists; returns the existing `Event` unchanged when
one is registered; otherwise performs the fresh registration of
`installListener`. -/
def IfcPropertiesManager.setAttributeListener (self : IfcPropertiesManager)
    (model : FragmentsGroup) (expressID : Nat) (attributeName : String) :
    Except String (Nat × FragmentsGroup × IfcPropertiesManager) :=
  let self1 :=
    if (aget self.attributeListeners model.uuid).isNone then
      { self with
        attributeListeners := aset self.attributeListeners model.uuid [] }
    else self
  let existingListener :=
    match aget self1.attributeListeners model.uuid with
    | none => none
    | some modelMap =>
      match aget modelMap expressID with
      | none => none
      | some entityMap => aget entityMap attributeName
  match existingListener with
  | some event => Except.ok (event, model, self1)
  | none => self1.installListener model expressID attributeName

/-- The wrapped web-ifc engine's file-level behavior, abstracted: `parse`
is what `readIfcFile` does to the bytes (producing the line table of the
re-read file), `save` is what `SaveModel` does to a line table. -/
structure WebIfcApi where
  parse : List Nat → List (Nat × Entity)
  save : List (Nat × Entity) → List Nat

/-- Modelled from the spec: the `IfcLoader` component and the web-ifc API
instance it wraps are not part of the excerpt. Per the spec, the wrapped
WASM API keeps per-model line tables indexed by the model id that
`readIfcFile` returns; `DeleteLine` removes a line, `WriteLine` stores
entity data at its express ID, `SaveModel` serializes the table, and
`CloseModel` drops it. -/
structure WasmState where
  nextModelID : Nat
  models : List (Nat × List (Nat × Entity))
deriving DecidableEq, Repr

/-- `ifcLoader.readIfcFile(bytes)`: parses the bytes into a fresh model
slot and returns its model id. -/
def WasmState.readIfcFile (api : WebIfcApi) (ws : WasmState)
    (bytes : List Nat) : WasmState × Nat :=
  let modelID := ws.nextModelID
  ({ nextModelID := modelID + 1
     models := aset ws.models modelID (api.parse bytes) }, modelID)

/-- `ifcApi.DeleteLine(modelID, expressID)`. -/
def WasmState.deleteLine (ws : WasmState) (modelID expressID : Nat) :
    WasmState :=
  match aget ws.models modelID with
  | none => ws
  | some tbl => { ws with models := aset ws.models modelID (adel tbl expressID) }

/-- `ifcApi.WriteLine(modelID, data)`: stores `data` at its express ID. -/
def WasmState.writeLine (ws : WasmState) (modelID : Nat) (data : Entity) :
    WasmState :=
  match aget ws.models modelID with
  | none => ws
  | some tbl =>
    { ws with models := aset ws.models modelID (aset tbl data.expressID data) }

/-- `ifcApi.SaveModel(modelID)`: serializes the model's line table. -/
def WasmState.saveModel (api : WebIfcApi) (ws : WasmState) (modelID : Nat) :
    List Nat :=
  api.save ((aget ws.models modelID).getD [])

/-- `ifcApi.CloseModel(modelID)`. -/
def WasmState.closeModel (ws : WasmState) (modelID : Nat) : WasmState :=
  { ws with models := adel ws.models modelID }

/-- `saveToIfc(model, ifcToSaveOn)`: re-reads the input file through the
wrapped API, then for every express ID recorded in
`changeMap[model.uuid]` deletes the line when the model's properties for
that id are null/absent and writes the current entity data otherwise
(the source wraps each engine call in a `try`/`catch` that swallows
errors; the embedded engine calls are total, so those handlers are dead),
and returns `SaveModel`'s output, closing the model afterwards. -/
def IfcPropertiesManager.saveToIfc (self : IfcPropertiesManager)
    (api : WebIfcApi) (ws : WasmState) (model : FragmentsGroup)
    (ifcToSaveOn : List Nat) : List Nat × WasmState :=
  let readResult := WasmState.readIfcFile api ws ifcToSaveOn
  let modelID := readResult.2
  let changes := (aget self.changeMap model.uuid).getD []
  let edited :=
    changes.foldl
      (fun ws expressID =>
        match model.getProperties expressID with
        | none => ws.deleteLine modelID expressID
        | some data => ws.writeLine modelID data)
      readResult.1
  let modifiedIFC := WasmState.saveModel api edited modelID
  (modifiedIFC, edited.closeModel modelID)

/-- The C1 property as the spec states it, written directly on line
tables: re-read the input into a line table, apply each recorded edit to
it (delete when the model's properties are null/absent, write the current
entity data otherwise), and serialize the result. -/
def saveToIfcSpec (api : WebIfcApi) (self : IfcPropertiesManager)
    (model : FragmentsGroup) (ifcToSaveOn : List Nat) : List Nat :=
  api.save
    (((aget self.changeMap model.uuid).getD []).foldl
      (fun tbl expressID =>
        match model.getProperties expressID with
        | none => adel tbl expressID
        | some data => aset tbl data.expressID data)
      (api.parse ifcToSaveOn))

/-- The state of a `SimpleRenderer` instance. The underlying
`THREE.WebGLRenderer` and `CSS2DRenderer` objects are identified by
numeric ids; the fields are `none` after `dispose` nulls them. The
counters and logs record `beforeUpdate`/`afterUpdate` triggers and the
`render(scene, camera)` calls forwarded to each underlying renderer
(scene and camera also identified by ids). Container and canvas sizes
track `resize`. -/
structure SimpleRenderer where
  renderer : Option Nat
  renderer2D : Option Nat
  container : Option (Nat × Nat)
  rendererSize : Nat × Nat
  renderer2DSize : Nat × Nat
  beforeUpdateCount : Nat
  afterUpdateCount : Nat
  renderLog : List (Nat × Nat)
  render2DLog : List (Nat × Nat)
deriving DecidableEq, Repr

/-- The constructor: creates the WebGL renderer (`r0`), pairs it with the
CSS2D renderer (`r2`) and the container of size `cw × ch`, and performs
the initial `resize()`. (The pixel-ratio setup and DOM wiring have no
further observable effect in this model.) -/
def SimpleRenderer.construct (r0 r2 cw ch : Nat) : SimpleRenderer :=
  { renderer := some r0
    renderer2D := some r2
    container := some (cw, ch)
    rendererSize := (cw, ch)
    renderer2DSize := (cw, ch)
    beforeUpdateCount := 0
    afterUpdateCount := 0
    renderLog := []
    render2DLog := [] }

/-- `get()`: returns `this._renderer`. -/
def SimpleRenderer.get (st : SimpleRenderer) : Option Nat :=
  st.renderer

/-- `update(_delta)`: triggers `beforeUpdate`, reads
`components.scene?.get()` and `components.camera?.get()` (passed in as the
current component lookups), returns early when either is missing,
otherwise renders the scene with the camera on the WebGL renderer and on
the CSS2D renderer and triggers `afterUpdate`. Calling `render` on a
nulled (disposed) renderer throws. -/
def SimpleRenderer.update (st : SimpleRenderer)
    (scene camera : Option Nat) : Except String SimpleRenderer :=
  let st1 := { st with beforeUpdateCount := st.beforeUpdateCount + 1 }
  match scene, camera with
  | some s, some c =>
    match st1.renderer, st1.renderer2D with
    | some _, some _ =>
      Except.ok
        { st1 with
          renderLog := st1.renderLog ++ [(s, c)]
          render2DLog := st1.render2DLog ++ [(s, c)]
          afterUpdateCount := st1.afterUpdateCount + 1 }
    | _, _ => Except.error "TypeError: renderer is null"
  | _, _ => Except.ok st1

/-- `resize()`: reads the container's client size and forwards it to
`setSize` on both underlying renderers; throws on a disposed instance. -/
def SimpleRenderer.resize (st : SimpleRenderer) : Except String SimpleRenderer :=
  match st.container, st.renderer, st.renderer2D with
  | some (w, h), some _, some _ =>
    Except.ok { st with rendererSize := (w, h), renderer2DSize := (w, h) }
  | _, _, _ => Except.error "TypeError: container or renderer is null"

/-- `getSize()`: reads the canvas client size from the WebGL renderer's
DOM element; throws on a disposed instance. The state is untouched. -/
def SimpleRenderer.getSize (st : SimpleRenderer) :
    Except String (Nat × Nat) :=
  match st.renderer with
  | some _ => Except.ok st.rendererSize
  | none => Except.error "TypeError: renderer is null"

/-- `dispose()`: removes the canvas, disposes the WebGL renderer, and
nulls `_renderer`, `_renderer2D` and `container`. -/
def SimpleRenderer.dispose (st : SimpleRenderer) : SimpleRenderer :=
  { st with renderer := none, renderer2D := none, container := none }

/-- One public operation on a live `SimpleRenderer`, for sequencing. -/
inductive SROp where
  | update (scene camera : Option Nat)
  | resize
  | getSize
deriving DecidableEq, Repr

/-- Applies one operation (dropping `getSize`'s return value). -/
def SimpleRenderer.applyOp (st : SimpleRenderer) (op : SROp) :
    Except String SimpleRenderer :=
  match op with
  | SROp.update scene camera => st.update scene camera
  | SROp.resize => st.resize
  | SROp.getSize =>
    match st.getSize with
    | Except.ok _ => Except.ok st
    | Except.error e => Except.error e

/-- Runs a sequence of operations left to right. -/
def SimpleRenderer.runOps (st : SimpleRenderer) (ops : List SROp) :
    Except String SimpleRenderer :=
  match ops with
  | [] => Except.ok st
  | op :: rest =>
    match st.applyOp op with
    | Except.error e => Except.error e
    | Except.ok st' => st'.runOps rest

theorem editFold_table (model : FragmentsGroup) (modelID : Nat)
    (ids : List Nat) :
    ∀ (ws : WasmState) (tbl : List (Nat × Entity)),
      aget ws.models modelID = some tbl →
      aget ((ids.foldl
        (fun ws expressID =>
          match model.getProperties expressID with
          | none => ws.deleteLine modelID expressID
          | some data => ws.writeLine modelID data) ws).models) modelID =
      some (ids.foldl
        (fun tbl expressID =>
          match model.getProperties expressID with
          | none => adel tbl expressID
          | some data => aset tbl data.expressID data) tbl) := by
  induction ids with
  | nil => intro ws tbl h; simpa using h
  | cons id rest ih =>
    intro ws tbl h
    cases hget : model.getProperties id with
    | none =>
      have hstep : aget (ws.deleteLine modelID id).models modelID =
          some (adel tbl id) := by
        simp [WasmState.deleteLine, h, aget_aset_self]
      simpa [List.foldl, hget] using ih (ws.deleteLine modelID id) (adel tbl id) hstep
    | some data =>
      have hstep : aget (ws.writeLine modelID data).models modelID =
          some (aset tbl data.expressID data) := by
        simp [WasmState.writeLine, h, aget_aset_self]
      simpa [List.foldl, hget] using
        ih (ws.writeLine modelID data) (aset tbl data.expressID data) hstep

/-- C1: for every model and every express ID recorded in
`changeMap[model.uuid]`, `saveToIfc` applies that edit to the re-read
input file through the wrapped WASM API — deleting the line when the
model's properties for the id are null/absent, writing the current entity
data otherwise — and the returned bytes are exactly the wrapped API's
`SaveModel` output for the re-read input after all those edits. -/
theorem c1_saveToIfc_serializes_edits (api : WebIfcApi) (ws : WasmState)
    (self : IfcPropertiesManager) (model : FragmentsGroup)
    (ifcToSaveOn : List Nat) :
    (self.saveToIfc api ws model ifcToSaveOn).1 =
      saveToIfcSpec api self model ifcToSaveOn := by
  have hinit : aget (aset ws.models ws.nextModelID (api.parse ifcToSaveOn))
      ws.nextModelID = some (api.parse ifcToSaveOn) := aget_aset_self _ _ _
  have h := editFold_table model ws.nextModelID
    ((aget self.changeMap model.uuid).getD [])
    { nextModelID := ws.nextModelID + 1
      models := aset ws.models ws.nextModelID (api.parse ifcToSaveOn) }
    (api.parse ifcToSaveOn) hinit
  simp [IfcPropertiesManager.saveToIfc, saveToIfcSpec, WasmState.readIfcFile,
    WasmState.saveModel, h]

/-- C2 counterexample: on a freshly constructed renderer, a call to
`update` with no scene available triggers `beforeUpdate` but performs no
render on either underlying renderer and does not trigger `afterUpdate` —
refuting the claim that every call to `update` renders on both renderers
and triggers `afterUpdate`. -/
theorem c2_counterexample :
    (SimpleRenderer.construct 1 2 10 10).update none none =
      Except.ok
        { SimpleRenderer.construct 1 2 10 10 with beforeUpdateCount := 1 } ∧
    ({ SimpleRenderer.construct 1 2 10 10 with
        beforeUpdateCount := 1 } : SimpleRenderer).afterUpdateCount = 0 ∧
    ({ SimpleRenderer.construct 1 2 10 10 with
        beforeUpdateCount := 1 } : SimpleRenderer).renderLog = [] ∧
    ({ SimpleRenderer.construct 1 2 10 10 with
        beforeUpdateCount := 1 } : SimpleRenderer).render2DLog = [] := by
  refine ⟨rfl, rfl, rfl, rfl⟩

/-- C2 (amended): every call to `update` triggers `beforeUpdate`; when
both a scene and a camera are available it renders the scene with the
camera on the 3D WebGL renderer and on the 2D CSS2D renderer and triggers
`afterUpdate`; when either is missing it returns right after
`beforeUpdate`, rendering nothing and not triggering `afterUpdate`. -/
theorem c2_update_forwards_scene_camera (st : SimpleRenderer)
    (scene camera : Option Nat) :
    (∀ st', st.update scene camera = Except.ok st' →
      st'.beforeUpdateCount = st.beforeUpdateCount + 1) ∧
    (∀ s c st', scene = some s → camera = some c →
      st.update scene camera = Except.ok st' →
      st'.renderLog = st.renderLog ++ [(s, c)] ∧
      st'.render2DLog = st.render2DLog ++ [(s, c)] ∧
      st'.afterUpdateCount = st.afterUpdateCount + 1) ∧
    (scene = none ∨ camera = none →
      st.update scene camera =
        Except.ok { st with beforeUpdateCount := st.beforeUpdateCount + 1 }) := by
  refine ⟨?_, ?_, ?_⟩
  · intro st' h
    cases scene with
    | none =>
      simp [SimpleRenderer.update] at h
      rw [← h]
    | some s =>
      cases camera with
      | none =>
        simp [SimpleRenderer.update] at h
        rw [← h]
      | some c =>
        cases hr : st.renderer with
        | none => simp [SimpleRenderer.update, hr] at h
        | some r =>
          cases hr2 : st.renderer2D with
          | none => simp [SimpleRenderer.update, hr, hr2] at h
          | some r2 =>
            simp [SimpleRenderer.update, hr, hr2] at h
            rw [← h]
  · intro s c st' hs hc h
    subst hs; subst hc
    cases hr : st.renderer with
    | none => simp [SimpleRenderer.update, hr] at h
    | some r =>
      cases hr2 : st.renderer2D with
      | none => simp [SimpleRenderer.update, hr, hr2] at h
      | some r2 =>
        simp [SimpleRenderer.update, hr, hr2] at h
        rw [← h]
        exact ⟨rfl, rfl, rfl⟩
  · intro h
    cases h with
    | inl hs => subst hs; rfl
    | inr hc =>
      subst hc
      cases scene <;> rfl

/-- C2 witness: on a concrete constructed renderer with scene 3 and
camera 4 available, the amended theorem yields the render calls and the
`afterUpdate` trigger. -/
theorem c2_update_forwards_scene_camera_witness :
    ({ SimpleRenderer.construct 1 2 8 6 with
        beforeUpdateCount := 1
        afterUpdateCount := 1
        renderLog := [(3, 4)]
        render2DLog := [(3, 4)] } : SimpleRenderer).renderLog =
      (SimpleRenderer.construct 1 2 8 6).renderLog ++ [(3, 4)] ∧
    ({ SimpleRenderer.construct 1 2 8 6 with
        beforeUpdateCount := 1
        afterUpdateCount := 1
        renderLog := [(3, 4)]
        render2DLog := [(3, 4)] } : SimpleRenderer).render2DLog =
      (SimpleRenderer.construct 1 2 8 6).render2DLog ++ [(3, 4)] ∧
    ({ SimpleRenderer.construct 1 2 8 6 with
        beforeUpdateCount := 1
        afterUpdateCount := 1
        renderLog := [(3, 4)]
        render2DLog := [(3, 4)] } : SimpleRenderer).afterUpdateCount =
      (SimpleRenderer.construct 1 2 8 6).afterUpdateCount + 1 :=
  (c2_update_forwards_scene_camera (SimpleRenderer.construct 1 2 8 6)
    (some 3) (some 4)).2.1 3 4 _ rfl rfl rfl

theorem srApplyOp_preserves_renderer (st : SimpleRenderer) (op : SROp)
    (st' : SimpleRenderer) (h : st.applyOp op = Except.ok st') :
    st'.renderer = st.renderer := by
  cases op with
  | update scene camera =>
    cases scene with
    | none =>
      simp [SimpleRenderer.applyOp, SimpleRenderer.update] at h
      rw [← h]
    | some s =>
      cases camera with
      | none =>
        simp [SimpleRenderer.applyOp, SimpleRenderer.update] at h
        rw [← h]
      | some c =>
        cases hr : st.renderer with
        | none => simp [SimpleRenderer.applyOp, SimpleRenderer.update, hr] at h
        | some r =>
          cases hr2 : st.renderer2D with
          | none =>
            simp [SimpleRenderer.applyOp, SimpleRenderer.update, hr, hr2] at h
          | some r2 =>
            simp [SimpleRenderer.applyOp, SimpleRenderer.update, hr, hr2] at h
            rw [← h]
  | resize =>
    cases hc : st.container with
    | none => simp [SimpleRenderer.applyOp, SimpleRenderer.resize, hc] at h
    | some wh =>
      cases hr : st.renderer with
      | none => simp [SimpleRenderer.applyOp, SimpleRenderer.resize, hc, hr] at h
      | some r =>
        cases hr2 : st.renderer2D with
        | none =>
          simp [SimpleRenderer.applyOp, SimpleRenderer.resize, hc, hr, hr2] at h
        | some r2 =>
          simp [SimpleRenderer.applyOp, SimpleRenderer.resize, hc, hr, hr2] at h
          rw [← h]
  | getSize =>
    cases hr : st.renderer with
    | none => simp [SimpleRenderer.applyOp, SimpleRenderer.getSize, hr] at h
    | some r =>
      simp [SimpleRenderer.applyOp, SimpleRenderer.getSize, hr] at h
      rw [← h]
      exact hr

theorem srRunOps_preserves_renderer (ops : List SROp) :
    ∀ (st st' : SimpleRenderer), st.runOps ops = Except.ok st' →
      st'.renderer = st.renderer := by
  induction ops with
  | nil =>
    intro st st' h
    simp [SimpleRenderer.runOps] at h
    rw [← h]
  | cons op rest ih =>
    intro st st' h
    simp only [SimpleRenderer.runOps] at h
    cases hop : st.applyOp op with
    | error e => rw [hop] at h; exact absurd h (by simp)
    | ok st1 =>
      rw [hop] at h
      exact (ih st1 st' h).trans (srApplyOp_preserves_renderer st op st1 hop)

/-- C7: after construction, any sequence of `update`, `resize` and
`getSize` calls that does not throw leaves `get()` returning the very
renderer instance created in the constructor; `dispose` then nulls it. -/
theorem c7_renderer_passthrough (r0 r2 cw ch : Nat) (ops : List SROp)
    (st' : SimpleRenderer)
    (h : (SimpleRenderer.construct r0 r2 cw ch).runOps ops = Except.ok st') :
    st'.get = some r0 ∧ (st'.dispose).get = none := by
  have hr := srRunOps_preserves_renderer ops (SimpleRenderer.construct r0 r2 cw ch) st' h
  constructor
  · rw [SimpleRenderer.get, hr]; rfl
  · rfl

/-- C7 witness: a concrete run of `update`, `resize`, `getSize` on a
constructed renderer keeps `get()` at the constructor's renderer id 1. -/
theorem c7_renderer_passthrough_witness :
    ({ SimpleRenderer.construct 1 2 8 6 with
        beforeUpdateCount := 1
        afterUpdateCount := 1
        renderLog := [(5, 6)]
        render2DLog := [(5, 6)] } : SimpleRenderer).get = some 1 ∧
    (({ SimpleRenderer.construct 1 2 8 6 with
        beforeUpdateCount := 1
        afterUpdateCount := 1
        renderLog := [(5, 6)]
        render2DLog := [(5, 6)] } : SimpleRenderer).dispose).get = none :=
  c7_renderer_passthrough 1 2 8 6
    [SROp.update (some 5) (some 6), SROp.resize, SROp.getSize] _ rfl

theorem setData_model_shape (self : IfcPropertiesManager)
    (model : FragmentsGroup) (l : List Entity) :
    (self.setData model l).1.ifcMetadata = model.ifcMetadata ∧
    (self.setData model l).1.uuid = model.uuid := by
  induction l generalizing self model with
  | nil => exact ⟨rfl, rfl⟩
  | cons d rest ih =>
    by_cases h : d.expressID = 0
    · simpa [IfcPropertiesManager.setData, h] using ih self model
    · simpa [IfcPropertiesManager.setData, h, FragmentsGroup.setProperties] using
        ih (self.registerChange (model.setProperties d.expressID (some d))
          [d.expressID]) (model.setProperties d.expressID (some d))

theorem setData_metadata (self : IfcPropertiesManager)
    (model : FragmentsGroup) (l : List Entity) :
    (self.setData model l).1.ifcMetadata = model.ifcMetadata :=
  (setData_model_shape self model l).1

theorem setData_uuid (self : IfcPropertiesManager)
    (model : FragmentsGroup) (l : List Entity) :
    (self.setData model l).1.uuid = model.uuid :=
  (setData_model_shape self model l).2

/-- A minimal stored `IfcOwnerHistory` entity, used by fixtures. -/
def ownerHistoryEntity : Entity := { expressID := 1, type := IFCOWNERHISTORY }

/-- A concrete model fixture: uuid `m1`, schema `IFC4`, an OwnerHistory
entity at express ID 1, and `maxExpressID` 10. -/
def modelFx : FragmentsGroup :=
  { uuid := "m1"
    ifcMetadata := { schema := some "IFC4", maxExpressID := 10 }
    properties := [(1, ownerHistoryEntity)] }

/-- A freshly constructed manager. -/
def mgrFx : IfcPropertiesManager := {}

/-- C3 counterexample: `newPset` on a concrete model with
`maxExpressID = 10` returns a model whose `maxExpressID` is 12 — the
manager itself modified `model.ifcMetadata.maxExpressID`, refuting the
claim that no operation of `IfcPropertiesManager` does. -/
theorem c3_counterexample :
    ((mgrFx.newPset modelFx "PsetA" none "g1" "g2").map
      (fun r => r.1.ifcMetadata.maxExpressID)) = Except.ok 12 ∧
    modelFx.ifcMetadata.maxExpressID = 10 := by
  exact ⟨rfl, rfl⟩

/-- C3 (amended): the manager computes and assigns express IDs itself
rather than delegating that bookkeeping: on success, `newPset` increments
`model.ifcMetadata.maxExpressID` by exactly 2, assigning the Pset the ID
`maxExpressID + 1` and the relation the ID `maxExpressID + 2`, and
`newSingleProperty` increments it by exactly 1, assigning the new
property the ID `maxExpressID + 1`. (Serialization and schema knowledge
remain delegated to the wrapped engine.) -/
theorem c3_manager_assigns_express_ids (self : IfcPropertiesManager)
    (model : FragmentsGroup) :
    (∀ name d g1 g2 m' st' pset rel,
      self.newPset model name d g1 g2 = Except.ok (m', st', pset, rel) →
      m'.ifcMetadata.maxExpressID = model.ifcMetadata.maxExpressID + 2 ∧
      pset.expressID = model.ifcMetadata.maxExpressID + 1 ∧
      rel.expressID = model.ifcMetadata.maxExpressID + 2) ∧
    (∀ type name v m' st' prop,
      self.newSingleProperty model type name v = Except.ok (m', st', prop) →
      m'.ifcMetadata.maxExpressID = model.ifcMetadata.maxExpressID + 1 ∧
      prop.expressID = model.ifcMetadata.maxExpressID + 1) := by
  constructor
  · intro name d g1 g2 m' st' pset rel h
    cases hs : IfcPropertiesManager.getIFCSchema model with
    | error e =>
      rw [IfcPropertiesManager.newPset, hs] at h
      exact absurd h (by simp)
    | ok schema =>
      cases hoh : IfcPropertiesManager.getOwnerHistory model with
      | error e =>
        rw [IfcPropertiesManager.newPset, hs, hoh] at h
        exact absurd h (by simp)
      | ok ohv =>
        obtain ⟨oh, hnd⟩ := ohv
        rw [IfcPropertiesManager.newPset, hs, hoh] at h
        simp only [Except.ok.injEq, Prod.mk.injEq] at h
        obtain ⟨h1, _, h3, h4⟩ := h
        refine ⟨?_, ?_, ?_⟩
        · rw [← h1, setData_metadata]
          simp [IfcPropertiesManager.increaseMaxID]
        · rw [← h3]
          simp [IfcPropertiesManager.increaseMaxID]
        · rw [← h4]
          simp [IfcPropertiesManager.increaseMaxID]
  · intro type name v m' st' prop h
    cases hs : IfcPropertiesManager.getIFCSchema model with
    | error e =>
      rw [IfcPropertiesManager.newSingleProperty, hs] at h
      exact absurd h (by simp)
    | ok schema =>
      rw [IfcPropertiesManager.newSingleProperty, hs] at h
      simp only [Except.ok.injEq, Prod.mk.injEq] at h
      obtain ⟨h1, _, h3⟩ := h
      constructor
      · rw [← h1, setData_metadata]
        simp [IfcPropertiesManager.increaseMaxID]
      · rw [← h3]
        simp [IfcPropertiesManager.increaseMaxID]

/-- The concrete `newPset` run used by the C3 witness. -/
def c3Run : Except String (FragmentsGroup × IfcPropertiesManager × Entity × Entity) :=
  mgrFx.newPset modelFx "P" none "a" "b"

/-- The successful result of `c3Run`. -/
def c3Ok : FragmentsGroup × IfcPropertiesManager × Entity × Entity :=
  (c3Run.toOption).get (by decide)

/-- The concrete `newSingleProperty` run used by the C3 witness. -/
def c3RunP : Except String (FragmentsGroup × IfcPropertiesManager × Entity) :=
  mgrFx.newSingleProperty modelFx "IfcText" "n" (JsVal.str "v")

/-- The successful result of `c3RunP`. -/
def c3OkP : FragmentsGroup × IfcPropertiesManager × Entity :=
  (c3RunP.toOption).get (by decide)

/-- C3 witness: the amended theorem applied at the concrete fixture. -/
theorem c3_manager_assigns_express_ids_witness :
    (c3Ok.1.ifcMetadata.maxExpressID = modelFx.ifcMetadata.maxExpressID + 2 ∧
     c3Ok.2.2.1.expressID = modelFx.ifcMetadata.maxExpressID + 1 ∧
     c3Ok.2.2.2.expressID = modelFx.ifcMetadata.maxExpressID + 2) ∧
    (c3OkP.1.ifcMetadata.maxExpressID = modelFx.ifcMetadata.maxExpressID + 1 ∧
     c3OkP.2.2.expressID = modelFx.ifcMetadata.maxExpressID + 1) :=
  ⟨(c3_manager_assigns_express_ids mgrFx modelFx).1 "P" none "a" "b"
      c3Ok.1 c3Ok.2.1 c3Ok.2.2.1 c3Ok.2.2.2 rfl,
   (c3_manager_assigns_express_ids mgrFx modelFx).2 "IfcText" "n"
      (JsVal.str "v") c3OkP.1 c3OkP.2.1 c3OkP.2.2 rfl⟩

theorem setData_two_get (self : IfcPropertiesManager) (m : FragmentsGroup)
    (a b : Entity) (ha : a.expressID ≠ 0) (hb : b.expressID ≠ 0)
    (hab : a.expressID ≠ b.expressID) :
    (self.setData m [a, b]).1.getProperties a.expressID = some a ∧
    (self.setData m [a, b]).1.getProperties b.expressID = some b := by
  have h1 : (self.setData m [a, b]).1.properties =
      aset (aset m.properties a.expressID a) b.expressID b := by
    simp [IfcPropertiesManager.setData, ha, hb, FragmentsGroup.setProperties]
  constructor
  · rw [FragmentsGroup.getProperties, h1, aget_aset_ne _ _ _ _ hab]
    exact aget_aset_self _ _ _
  · rw [FragmentsGroup.getProperties, h1]
    exact aget_aset_self _ _ _

/-- C4: for every model with a schema and an OwnerHistory entity (and
express IDs bounded by `maxExpressID`), `newPset` resolves with exactly a
pair of a new `IfcPropertySet` — carrying the given name, the optional
description, and an empty property list — and a new
`IfcRelDefinesByProperties` whose `RelatingPropertyDefinition` is a handle
to that Pset; the two entities receive distinct express IDs that are fresh
for the model, and both are stored into the model via `setData`. -/
theorem c4_newPset_creates_pset_and_rel (self : IfcPropertiesManager)
    (model : FragmentsGroup) (name : String) (description : Option String)
    (g1 g2 : String) (schema : String) (ohv : Entity × Handle)
    (hs : model.ifcMetadata.schema = some schema)
    (hoh : IfcPropertiesManager.getOwnerHistory model = Except.ok ohv)
    (hmax : ∀ id e, aget model.properties id = some e →
      id ≤ model.ifcMetadata.maxExpressID) :
    ∃ m' st' pset rel,
      self.newPset model name description g1 g2 =
        Except.ok (m', st', pset, rel) ∧
      pset.type = IFCPROPERTYSET ∧
      pset.Name = some (TypedValue.mk schema "IfcLabel" (JsVal.str name)) ∧
      pset.Description =
        description.map (fun d => TypedValue.mk schema "IfcText" (JsVal.str d)) ∧
      pset.HasProperties = [] ∧
      rel.type = IFCRELDEFINESBYPROPERTIES ∧
      rel.RelatingPropertyDefinition = some (Handle.mk pset.expressID) ∧
      pset.expressID ≠ rel.expressID ∧
      model.getProperties pset.expressID = none ∧
      model.getProperties rel.expressID = none ∧
      m'.getProperties pset.expressID = some pset ∧
      m'.getProperties rel.expressID = some rel := by
  obtain ⟨oh, hnd⟩ := ohv
  have hsch : IfcPropertiesManager.getIFCSchema model = Except.ok schema := by
    simp [IfcPropertiesManager.getIFCSchema, hs]
  rw [IfcPropertiesManager.newPset, hsch, hoh]
  simp only []
  have hid1 : (IfcPropertiesManager.increaseMaxID model).2 =
      model.ifcMetadata.maxExpressID + 1 := rfl
  have hid2 : (IfcPropertiesManager.increaseMaxID
      (IfcPropertiesManager.increaseMaxID model).1).2 =
      model.ifcMetadata.maxExpressID + 2 := rfl
  refine ⟨_, _, _, _, rfl, rfl, rfl, rfl, rfl, rfl, rfl, ?_, ?_, ?_, ?_, ?_⟩
  · simp only [hid1, hid2]
    omega
  · show model.getProperties (model.ifcMetadata.maxExpressID + 1) = none
    cases hg : model.getProperties (model.ifcMetadata.maxExpressID + 1) with
    | none => rfl
    | some e =>
      have := hmax _ _ hg
      omega
  · show model.getProperties (model.ifcMetadata.maxExpressID + 2) = none
    cases hg : model.getProperties (model.ifcMetadata.maxExpressID + 2) with
    | none => rfl
    | some e =>
      have := hmax _ _ hg
      omega
  · exact (setData_two_get self _ _ _ (by simp [hid1]) (by simp [hid2])
      (by simp only [hid1, hid2]; omega)).1
  · exact (setData_two_get self _ _ _ (by simp [hid1]) (by simp [hid2])
      (by simp only [hid1, hid2]; omega)).2

/-- C4 witness: the theorem applied at the concrete fixture model. -/
theorem c4_newPset_creates_pset_and_rel_witness :
    ∃ m' st' pset rel,
      mgrFx.newPset modelFx "PsetX" (some "D") "a" "b" =
        Except.ok (m', st', pset, rel) ∧
      pset.type = IFCPROPERTYSET ∧
      pset.Name = some (TypedValue.mk "IFC4" "IfcLabel" (JsVal.str "PsetX")) ∧
      pset.Description =
        (some "D").map (fun d => TypedValue.mk "IFC4" "IfcText" (JsVal.str d)) ∧
      pset.HasProperties = [] ∧
      rel.type = IFCRELDEFINESBYPROPERTIES ∧
      rel.RelatingPropertyDefinition = some (Handle.mk pset.expressID) ∧
      pset.expressID ≠ rel.expressID ∧
      modelFx.getProperties pset.expressID = none ∧
      modelFx.getProperties rel.expressID = none ∧
      m'.getProperties pset.expressID = some pset ∧
      m'.getProperties rel.expressID = some rel :=
  c4_newPset_creates_pset_and_rel mgrFx modelFx "PsetX" (some "D") "a" "b"
    "IFC4" (ownerHistoryEntity, Handle.mk 1) rfl rfl
    (by
      intro id e h
      show id ≤ 10
      by_cases h1 : (1 : Nat) = id
      · omega
      · simp [modelFx, aget, h1] at h)

theorem setAdd_mem (s : List Nat) (n : Nat) : n ∈ setAdd s n := by
  unfold setAdd
  split
  · next h => simpa using h
  · simp

theorem setData_one (self : IfcPropertiesManager) (m : FragmentsGroup)
    (a : Entity) (ha : a.expressID ≠ 0) :
    (self.setData m [a]).1.getProperties a.expressID = some a ∧
    a.expressID ∈ (self.setData m [a]).2.changesOf m.uuid := by
  have hm : self.setData m [a] =
      (m.setProperties a.expressID (some a),
       self.registerChange (m.setProperties a.expressID (some a))
         [a.expressID]) := by
    simp [IfcPropertiesManager.setData, ha]
  rw [hm]
  constructor
  · show aget (aset m.properties a.expressID a) a.expressID = some a
    exact aget_aset_self _ _ _
  · simp only [IfcPropertiesManager.registerChange,
      IfcPropertiesManager.changesOf, FragmentsGroup.setProperties,
      List.foldl, List.map]
    rw [aget_aset_self]
    simpa using setAdd_mem ((aget self.changeMap m.uuid).getD []) a.expressID

theorem newSingleProperty_spec (self : IfcPropertiesManager)
    (model : FragmentsGroup) (type name : String) (value : JsVal)
    (schema : String) (hs : model.ifcMetadata.schema = some schema)
    (hmax : ∀ id e, aget model.properties id = some e →
      id ≤ model.ifcMetadata.maxExpressID) :
    ∃ m' st' prop,
      self.newSingleProperty model type name value =
        Except.ok (m', st', prop) ∧
      prop.type = IFCPROPERTYSINGLEVALUE ∧
      prop.Name = some (TypedValue.mk schema "IfcIdentifier" (JsVal.str name)) ∧
      prop.NominalValue = some (TypedValue.mk schema type value) ∧
      prop.expressID = model.ifcMetadata.maxExpressID + 1 ∧
      model.getProperties prop.expressID = none ∧
      m'.getProperties prop.expressID = some prop ∧
      prop.expressID ∈ st'.changesOf model.uuid := by
  have hsch : IfcPropertiesManager.getIFCSchema model = Except.ok schema := by
    simp [IfcPropertiesManager.getIFCSchema, hs]
  rw [IfcPropertiesManager.newSingleProperty, hsch]
  simp only []
  have hid1 : (IfcPropertiesManager.increaseMaxID model).2 =
      model.ifcMetadata.maxExpressID + 1 := rfl
  have hne : (IfcPropertiesManager.increaseMaxID model).2 ≠ 0 := by
    rw [hid1]; omega
  refine ⟨_, _, _, rfl, rfl, rfl, rfl, hid1, ?_, ?_, ?_⟩
  · rw [hid1]
    cases hg : model.getProperties (model.ifcMetadata.maxExpressID + 1) with
    | none => rfl
    | some e =>
      have := hmax _ _ hg
      omega
  · exact (setData_one self _ _ hne).1
  · have hu : (IfcPropertiesManager.increaseMaxID model).1.uuid = model.uuid :=
      rfl
    rw [← hu]
    exact (setData_one self _ _ hne).2

/-- C6: for every model with a schema and an OwnerHistory entity (and
express IDs bounded by `maxExpressID`), each of `newSingleStringProperty`,
`newSingleNumericProperty` and `newSingleBooleanProperty` creates an
`IfcPropertySingleValue` whose `Name` is the given name and whose
`NominalValue` wraps the given value in the given IFC type, with a fresh
express ID; it stores it in the model via `setData`, registering the ID in
`changeMap[model.uuid]`, and returns that property. -/
theorem c6_newSingleProperties (self : IfcPropertiesManager)
    (model : FragmentsGroup) (schema : String) (ohv : Entity × Handle)
    (hs : model.ifcMetadata.schema = some schema)
    (_hoh : IfcPropertiesManager.getOwnerHistory model = Except.ok ohv)
    (hmax : ∀ id e, aget model.properties id = some e →
      id ≤ model.ifcMetadata.maxExpressID) :
    (∀ (t : StringPropTypes) (name value : String),
      ∃ m' st' prop,
        self.newSingleStringProperty model t name value =
          Except.ok (m', st', prop) ∧
        prop.type = IFCPROPERTYSINGLEVALUE ∧
        prop.Name = some (TypedValue.mk schema "IfcIdentifier" (JsVal.str name)) ∧
        prop.NominalValue = some (TypedValue.mk schema t.name (JsVal.str value)) ∧
        prop.expressID = model.ifcMetadata.maxExpressID + 1 ∧
        model.getProperties prop.expressID = none ∧
        m'.getProperties prop.expressID = some prop ∧
        prop.expressID ∈ st'.changesOf model.uuid) ∧
    (∀ (t : NumericPropTypes) (name : String) (value : Int),
      ∃ m' st' prop,
        self.newSingleNumericProperty model t name value =
          Except.ok (m', st', prop) ∧
        prop.type = IFCPROPERTYSINGLEVALUE ∧
        prop.Name = some (TypedValue.mk schema "IfcIdentifier" (JsVal.str name)) ∧
        prop.NominalValue = some (TypedValue.mk schema t.name (JsVal.num value)) ∧
        prop.expressID = model.ifcMetadata.maxExpressID + 1 ∧
        model.getProperties prop.expressID = none ∧
        m'.getProperties prop.expressID = some prop ∧
        prop.expressID ∈ st'.changesOf model.uuid) ∧
    (∀ (t : BooleanPropTypes) (name : String) (value : Bool),
      ∃ m' st' prop,
        self.newSingleBooleanProperty model t name value =
          Except.ok (m', st', prop) ∧
        prop.type = IFCPROPERTYSINGLEVALUE ∧
        prop.Name = some (TypedValue.mk schema "IfcIdentifier" (JsVal.str name)) ∧
        prop.NominalValue = some (TypedValue.mk schema t.name (JsVal.bool value)) ∧
        prop.expressID = model.ifcMetadata.maxExpressID + 1 ∧
        model.getProperties prop.expressID = none ∧
        m'.getProperties prop.expressID = some prop ∧
        prop.expressID ∈ st'.changesOf model.uuid) := by
  refine ⟨?_, ?_, ?_⟩
  · intro t name value
    exact newSingleProperty_spec self model t.name name (JsVal.str value)
      schema hs hmax
  · intro t name value
    exact newSingleProperty_spec self model t.name name (JsVal.num value)
      schema hs hmax
  · intro t name value
    exact newSingleProperty_spec self model t.name name (JsVal.bool value)
      schema hs hmax

/-- C6 witness: the theorem applied at the concrete fixture model, one
instance per property kind. -/
theorem c6_newSingleProperties_witness :
    (∃ m' st' prop,
      mgrFx.newSingleStringProperty modelFx StringPropTypes.ifcLabel "N"
        "V" = Except.ok (m', st', prop) ∧
      prop.type = IFCPROPERTYSINGLEVALUE ∧
      prop.Name = some (TypedValue.mk "IFC4" "IfcIdentifier" (JsVal.str "N")) ∧
      prop.NominalValue =
        some (TypedValue.mk "IFC4" StringPropTypes.ifcLabel.name (JsVal.str "V")) ∧
      prop.expressID = modelFx.ifcMetadata.maxExpressID + 1 ∧
      modelFx.getProperties prop.expressID = none ∧
      m'.getProperties prop.expressID = some prop ∧
      prop.expressID ∈ st'.changesOf modelFx.uuid) ∧
    (∃ m' st' prop,
      mgrFx.newSingleNumericProperty modelFx NumericPropTypes.ifcInteger "N"
        (7 : Int) = Except.ok (m', st', prop) ∧
      prop.type = IFCPROPERTYSINGLEVALUE ∧
      prop.Name = some (TypedValue.mk "IFC4" "IfcIdentifier" (JsVal.str "N")) ∧
      prop.NominalValue =
        some (TypedValue.mk "IFC4" NumericPropTypes.ifcInteger.name (JsVal.num 7)) ∧
      prop.expressID = modelFx.ifcMetadata.maxExpressID + 1 ∧
      modelFx.getProperties prop.expressID = none ∧
      m'.getProperties prop.expressID = some prop ∧
      prop.expressID ∈ st'.changesOf modelFx.uuid) ∧
    (∃ m' st' prop,
      mgrFx.newSingleBooleanProperty modelFx BooleanPropTypes.ifcBoolean "N"
        true = Except.ok (m', st', prop) ∧
      prop.type = IFCPROPERTYSINGLEVALUE ∧
      prop.Name = some (TypedValue.mk "IFC4" "IfcIdentifier" (JsVal.str "N")) ∧
      prop.NominalValue =
        some (TypedValue.mk "IFC4" BooleanPropTypes.ifcBoolean.name (JsVal.bool true)) ∧
      prop.expressID = modelFx.ifcMetadata.maxExpressID + 1 ∧
      modelFx.getProperties prop.expressID = none ∧
      m'.getProperties prop.expressID = some prop ∧
      prop.expressID ∈ st'.changesOf modelFx.uuid) := by
  have hmaxFx : ∀ id e, aget modelFx.properties id = some e →
      id ≤ modelFx.ifcMetadata.maxExpressID := by
    intro id e h
    show id ≤ 10
    by_cases h1 : (1 : Nat) = id
    · omega
    · simp [modelFx, aget, h1] at h
  have h := c6_newSingleProperties mgrFx modelFx "IFC4"
    (ownerHistoryEntity, Handle.mk 1) rfl rfl hmaxFx
  exact ⟨h.1 StringPropTypes.ifcLabel "N" "V",
    h.2.1 NumericPropTypes.ifcInteger "N" 7,
    h.2.2 BooleanPropTypes.ifcBoolean "N" true⟩

/-- The C9 failing input: an `IfcPropertySet` with an empty property
list, stored at express ID 1. -/
def c9Pset : Entity := { expressID := 1, type := IFCPROPERTYSET }

/-- The C9 failing-input model. -/
def c9Model : FragmentsGroup :=
  { uuid := "m1"
    ifcMetadata := { schema := some "IFC4", maxExpressID := 10 }
    properties := [(1, c9Pset)] }

/-- C9 (code bug): `addPropToPset` is not idempotent on membership. The
guard `pset.HasProperties.includes(expressID)` compares the raw number
`expressID` against the stored `Handle` objects with strict equality, so
it is always false on handle lists (third conjunct); the second call
therefore pushes a duplicate handle: after one call `HasProperties` is
`[Handle 2]`, after two calls it is `[Handle 2, Handle 2]`. -/
theorem c9_addPropToPset_not_idempotent :
    (((mgrFx.addPropToPset c9Model 1 [2]).1.getProperties 1).map
        Entity.HasProperties = some [PropRef.handle 2]) ∧
    ((((mgrFx.addPropToPset c9Model 1 [2]).2.addPropToPset
        (mgrFx.addPropToPset c9Model 1 [2]).1 1 [2]).1.getProperties 1).map
        Entity.HasProperties =
      some [PropRef.handle 2, PropRef.handle 2]) ∧
    ([PropRef.handle 2].contains (PropRef.rawNum 2) = false) := by
  refine ⟨by decide, by decide, by decide⟩

/-- C10: when a listener is already registered for the model uuid, express
ID and attribute name, `setAttributeListener` returns that same `Event`
and leaves both the model and the manager state — in particular
`attributeListeners` — exactly unchanged, performing no reads or writes of
the entity (it succeeds even when the entity no longer exists). -/
theorem c10_setAttributeListener_idempotent (self : IfcPropertiesManager)
    (model : FragmentsGroup) (expressID : Nat) (attributeName : String)
    (event : Nat)
    (h : self.lookupListener model.uuid expressID attributeName = some event) :
    self.setAttributeListener model expressID attributeName =
      Except.ok (event, model, self) := by
  cases hml : aget self.attributeListeners model.uuid with
  | none =>
    rw [IfcPropertiesManager.lookupListener, hml] at h
    exact absurd h (by simp)
  | some modelMap =>
    cases hem : aget modelMap expressID with
    | none =>
      rw [IfcPropertiesManager.lookupListener, hml] at h
      simp only [] at h
      rw [hem] at h
      exact absurd h (by simp)
    | some entityMap =>
      rw [IfcPropertiesManager.lookupListener, hml] at h
      simp only [] at h
      rw [hem] at h
      simp only [] at h
      rw [IfcPropertiesManager.setAttributeListener]
      simp [hml, hem, h]

/-- The C10 witness manager: a listener (event id 0) registered for model
`m1`, express ID 4, attribute `Name`. -/
def c10Mgr : IfcPropertiesManager :=
  { attributeListeners := [("m1", [(4, [("Name", 0)])])] }

/-- The C10 witness model: uuid `m1` with an empty property store — the
listened-to entity has been removed since registration. -/
def c10Model : FragmentsGroup :=
  { uuid := "m1"
    ifcMetadata := { schema := some "IFC4", maxExpressID := 10 }
    properties := [] }

/-- C10 witness: the theorem applied at the concrete fixture, on a model
from which the entity has been removed. -/
theorem c10_setAttributeListener_idempotent_witness :
    c10Mgr.setAttributeListener c10Model 4 "Name" =
      Except.ok (0, c10Model, c10Mgr) :=
  c10_setAttributeListener_idempotent c10Mgr c10Model 4 "Name" 0 rfl

/-- The accessor pair installed by `setAttributeListener` is present on
the attribute object and wired to the given event: the entity exists, the
attribute is an object, and its setter triggers `event`. -/
def listenerInstalled (model : FragmentsGroup) (expressID : Nat)
    (attributeName : String) (event : Nat) : Prop :=
  ∃ entity a,
    model.getProperties expressID = some entity ∧
    aget entity.attrs attributeName = some (AttrVal.obj a) ∧
    a.listener = some event

theorem installListener_ok (self1 : IfcPropertiesManager)
    (model : FragmentsGroup) (expressID : Nat) (attributeName : String)
    (event : Nat) (model' : FragmentsGroup) (self' : IfcPropertiesManager)
    (h : self1.installListener model expressID attributeName =
      Except.ok (event, model', self')) :
    attrValue model' expressID attributeName =
      attrValue model expressID attributeName ∧
    listenerInstalled model' expressID attributeName event := by
  cases hge : model.getProperties expressID with
  | none =>
    rw [IfcPropertiesManager.installListener, hge] at h
    exact absurd h (by simp)
  | some entity =>
    rw [IfcPropertiesManager.installListener, hge] at h
    simp only [] at h
    cases hattr : aget entity.attrs attributeName with
    | none =>
      rw [hattr] at h
      exact absurd h (by simp)
    | some av =>
      rw [hattr] at h
      cases av with
      | nullv => exact absurd h (by simp)
      | arr xs => exact absurd h (by simp)
      | obj a =>
        simp only [] at h
        cases hov : a.observedValue with
        | none =>
          rw [hov] at h
          exact absurd h (by simp)
        | some value =>
          rw [hov] at h
          simp only [] at h
          cases hlis : a.listener with
          | some e0 =>
            rw [hlis] at h
            exact absurd h (by simp)
          | none =>
            rw [hlis] at h
            simp only [Except.ok.injEq, Prod.mk.injEq] at h
            obtain ⟨hev, hm, _⟩ := h
            simp only [AttributeObj.observedValue, hlis] at hov
            have hg2 : model'.getProperties expressID =
                some { entity with
                  attrs := aset entity.attrs attributeName
                    (AttrVal.obj { a with
                      listener := some self1.nextEventId
                      backing := some value }) } := by
              rw [← hm]
              show aget (aset model.properties expressID _) expressID = _
              exact aget_aset_self _ _ _
            constructor
            · rw [attrValue, attrValue, hge, hg2]
              simp only [hattr]
              rw [aget_aset_self]
              simp only [AttributeObj.observedValue, hlis]
              exact hov.symm
            · refine ⟨_, _, hg2, aget_aset_self _ _ _, ?_⟩
              simp [← hev]

/-- C5: for a fresh registration, `setAttributeListener` installs the
listener without changing the attribute's observable value (the initial
re-assignment of the existing value through the new setter preserves it),
and from then on every assignment to that attribute's value triggers the
returned event with exactly the newly assigned value, stores that value
as the attribute's new observable value, and keeps the listener installed
(so the same holds for each later assignment). -/
theorem c5_attribute_listener_behavior (self : IfcPropertiesManager)
    (model : FragmentsGroup) (expressID : Nat) (attributeName : String)
    (hnew : self.lookupListener model.uuid expressID attributeName = none) :
    (∀ event model' self',
      self.setAttributeListener model expressID attributeName =
        Except.ok (event, model', self') →
      attrValue model' expressID attributeName =
        attrValue model expressID attributeName ∧
      listenerInstalled model' expressID attributeName event) ∧
    (∀ event m1 st1 v,
      listenerInstalled m1 expressID attributeName event →
      (assignAttr m1 st1 expressID attributeName v).2.attrEventLog =
        st1.attrEventLog ++ [(event, v)] ∧
      attrValue (assignAttr m1 st1 expressID attributeName v).1 expressID
        attributeName = some v ∧
      listenerInstalled (assignAttr m1 st1 expressID attributeName v).1
        expressID attributeName event) := by
  constructor
  · intro event model' self' h
    cases hml0 : aget self.attributeListeners model.uuid with
    | none =>
      rw [IfcPropertiesManager.setAttributeListener] at h
      simp only [hml0, Option.isNone_none, if_true, aget_aset_self] at h
      rw [show aget ([] : List (Nat × List (String × Nat))) expressID = none
        from rfl] at h
      exact installListener_ok _ _ _ _ _ _ _ h
    | some mm =>
      rw [IfcPropertiesManager.lookupListener, hml0] at hnew
      simp only [] at hnew
      have hself1 :
          (if (aget self.attributeListeners model.uuid).isNone then
            { self with
              attributeListeners := aset self.attributeListeners model.uuid [] }
          else self) = self := by
        rw [hml0]
        rfl
      cases hem : aget mm expressID with
      | none =>
        have hred : self.setAttributeListener model expressID attributeName =
            self.installListener model expressID attributeName := by
          rw [IfcPropertiesManager.setAttributeListener]
          simp [hml0, hem]
        rw [hred] at h
        exact installListener_ok _ _ _ _ _ _ _ h
      | some em =>
        rw [hem] at hnew
        simp only [] at hnew
        have hred : self.setAttributeListener model expressID attributeName =
            self.installListener model expressID attributeName := by
          rw [IfcPropertiesManager.setAttributeListener]
          simp [hml0, hem, hnew]
        rw [hred] at h
        exact installListener_ok _ _ _ _ _ _ _ h
  · intro event m1 st1 v hinst
    obtain ⟨ent, a, h1, h2, h3⟩ := hinst
    rw [assignAttr, h1]
    simp only []
    rw [h2]
    simp only []
    rw [h3]
    simp only []
    have hg : (m1.mutateEntity expressID
        { ent with
          attrs := aset ent.attrs attributeName
            (AttrVal.obj
              { a with listener := some event, backing := some v }) }).getProperties
          expressID =
        some { ent with
          attrs := aset ent.attrs attributeName
            (AttrVal.obj
              { a with listener := some event, backing := some v }) } := by
      show aget (aset m1.properties expressID _) expressID = _
      exact aget_aset_self _ _ _
    refine ⟨by trivial, ?_, ?_⟩
    · rw [attrValue, hg]
      simp only []
      rw [aget_aset_self]
      simp [AttributeObj.observedValue]
    · exact ⟨_, _, hg, aget_aset_self _ _ _, rfl⟩

/-- The C5 witness attribute: a plain `{ type, value }` object holding the
string `x`, before any accessor is installed. -/
def c5Attr : AttributeObj :=
  { vtype := "IfcLabel", rawValue := some (JsVal.str "x") }

/-- The C5 witness entity, with the attribute under the name `Name`. -/
def c5Entity : Entity :=
  { expressID := 4, attrs := [("Name", AttrVal.obj c5Attr)] }

/-- The C5 witness model. -/
def c5Model : FragmentsGroup :=
  { uuid := "m1"
    ifcMetadata := { schema := some "IFC4", maxExpressID := 10 }
    properties := [(4, c5Entity)] }

/-- The concrete registration run used by the C5 witness. -/
def c5Run : Except String (Nat × FragmentsGroup × IfcPropertiesManager) :=
  mgrFx.setAttributeListener c5Model 4 "Name"

/-- The successful result of `c5Run`. -/
def c5Ok : Nat × FragmentsGroup × IfcPropertiesManager :=
  (c5Run.toOption).get (by decide)

/-- C5 witness: the theorem applied at the concrete fixture — the
registration preserves the value `x`, and an assignment of `y` afterwards
triggers the returned event with `y` and stores `y`. -/
theorem c5_attribute_listener_behavior_witness :
    (attrValue c5Ok.2.1 4 "Name" = attrValue c5Model 4 "Name" ∧
     listenerInstalled c5Ok.2.1 4 "Name" c5Ok.1) ∧
    ((assignAttr c5Ok.2.1 mgrFx 4 "Name" (JsVal.str "y")).2.attrEventLog =
        mgrFx.attrEventLog ++ [(c5Ok.1, JsVal.str "y")] ∧
     attrValue (assignAttr c5Ok.2.1 mgrFx 4 "Name" (JsVal.str "y")).1 4
        "Name" = some (JsVal.str "y") ∧
     listenerInstalled (assignAttr c5Ok.2.1 mgrFx 4 "Name" (JsVal.str "y")).1
        4 "Name" c5Ok.1) := by
  have h := c5_attribute_listener_behavior mgrFx c5Model 4 "Name" rfl
  have h1 := h.1 c5Ok.1 c5Ok.2.1 c5Ok.2.2 rfl
  exact ⟨h1, h.2 c5Ok.1 c5Ok.2.1 mgrFx (JsVal.str "y") h1.2⟩

theorem registerChange_changesOf_self (self : IfcPropertiesManager)
    (model : FragmentsGroup) (ids : List Nat) :
    (self.registerChange model ids).changesOf model.uuid =
      ids.foldl setAdd (self.changesOf model.uuid) := by
  simp [IfcPropertiesManager.registerChange, IfcPropertiesManager.changesOf,
    aget_aset_self]

theorem registerChange_changesOf_other (self : IfcPropertiesManager)
    (model : FragmentsGroup) (ids : List Nat) (u : String)
    (hu : u ≠ model.uuid) :
    (self.registerChange model ids).changesOf u = self.changesOf u := by
  simp [IfcPropertiesManager.registerChange, IfcPropertiesManager.changesOf,
    aget_aset_ne _ _ _ _ hu]

theorem registerChange_log (self : IfcPropertiesManager)
    (model : FragmentsGroup) (ids : List Nat) :
    (self.registerChange model ids).onDataChangedLog =
      self.onDataChangedLog ++ ids.map (fun id => (model.uuid, id)) := rfl

/-- `s1`'s change sets are contained in `s2`'s, for every model uuid. -/
def cmLe (s1 s2 : IfcPropertiesManager) : Prop :=
  ∀ u x, x ∈ s1.changesOf u → x ∈ s2.changesOf u

theorem cmLe_refl (s : IfcPropertiesManager) : cmLe s s :=
  fun _ _ h => h

theorem cmLe_trans {s1 s2 s3 : IfcPropertiesManager} (h1 : cmLe s1 s2)
    (h2 : cmLe s2 s3) : cmLe s1 s3 :=
  fun u x h => h2 u x (h1 u x h)

theorem cmLe_of_changeMap_eq {s1 s2 : IfcPropertiesManager}
    (h : s1.changeMap = s2.changeMap) : cmLe s1 s2 := by
  intro u x hx
  rw [IfcPropertiesManager.changesOf] at hx ⊢
  rw [← h]
  exact hx

theorem setAdd_subset (s : List Nat) (n x : Nat) (h : x ∈ s) :
    x ∈ setAdd s n := by
  unfold setAdd
  split
  · exact h
  · exact List.mem_append_left _ h

theorem foldl_setAdd_subset (ids : List Nat) :
    ∀ (s : List Nat) (x : Nat), x ∈ s → x ∈ ids.foldl setAdd s := by
  induction ids with
  | nil => intro s x h; simpa using h
  | cons id rest ih =>
    intro s x h
    rw [List.foldl_cons]
    exact ih (setAdd s id) x (setAdd_subset s id x h)

theorem registerChange_cmLe (self : IfcPropertiesManager)
    (model : FragmentsGroup) (ids : List Nat) :
    cmLe self (self.registerChange model ids) := by
  intro u x hx
  by_cases hu : u = model.uuid
  · subst hu
    rw [registerChange_changesOf_self]
    exact foldl_setAdd_subset _ _ _ hx
  · rw [registerChange_changesOf_other _ _ _ _ hu]
    exact hx

theorem foldl_preserves {α β γ : Type} (g : β → γ) (f : β → α → β)
    (hf : ∀ b a, g (f b a) = g b) (l : List α) :
    ∀ b, g (l.foldl f b) = g b := by
  induction l with
  | nil => intro b; rfl
  | cons a rest ih =>
    intro b
    rw [List.foldl_cons, ih (f b a), hf b a]

theorem setData_cons_zero (self : IfcPropertiesManager)
    (model : FragmentsGroup) (d : Entity) (rest : List Entity)
    (h : d.expressID = 0) :
    self.setData model (d :: rest) = self.setData model rest := by
  simp [IfcPropertiesManager.setData, h]

theorem setData_cons_pos (self : IfcPropertiesManager)
    (model : FragmentsGroup) (d : Entity) (rest : List Entity)
    (h : d.expressID ≠ 0) :
    self.setData model (d :: rest) =
      (self.registerChange (model.setProperties d.expressID (some d))
        [d.expressID]).setData
        (model.setProperties d.expressID (some d)) rest := by
  simp [IfcPropertiesManager.setData, h]

theorem setData_cmLe (self : IfcPropertiesManager) (model : FragmentsGroup)
    (l : List Entity) : cmLe self (self.setData model l).2 := by
  induction l generalizing self model with
  | nil => exact cmLe_refl self
  | cons d rest ih =>
    by_cases h : d.expressID = 0
    · rw [setData_cons_zero self model d rest h]
      exact ih self model
    · rw [setData_cons_pos self model d rest h]
      exact cmLe_trans (registerChange_cmLe self _ [d.expressID]) (ih _ _)

theorem removePsetOne_cmLe (self : IfcPropertiesManager)
    (model : FragmentsGroup) (id : Nat) :
    cmLe self (self.removePsetOne model id).2 := by
  rw [IfcPropertiesManager.removePsetOne]
  cases hg : model.getProperties id with
  | none => exact cmLe_refl self
  | some pset =>
    simp only []
    by_cases ht : pset.type = IFCPROPERTYSET
    · rw [if_pos ht]
      cases hrel : IfcPropertiesUtils.getPsetRel model id with
      | none =>
        simp only []
        exact cmLe_trans (cmLe_of_changeMap_eq rfl)
          (registerChange_cmLe _ model [id])
      | some rid =>
        simp only []
        exact cmLe_trans (registerChange_cmLe self model [rid])
          (cmLe_trans (cmLe_of_changeMap_eq rfl)
            (registerChange_cmLe _ model [id]))
    · rw [if_neg ht]
      exact cmLe_refl self

theorem removePset_cons (self : IfcPropertiesManager) (model : FragmentsGroup)
    (id : Nat) (rest : List Nat) :
    self.removePset model (id :: rest) =
      ((self.removePsetOne model id).2).removePset
        (self.removePsetOne model id).1 rest := by
  simp [IfcPropertiesManager.removePset]

theorem removePset_cmLe (self : IfcPropertiesManager) (model : FragmentsGroup)
    (ids : List Nat) : cmLe self (self.removePset model ids).2 := by
  induction ids generalizing self model with
  | nil => exact cmLe_refl self
  | cons id rest ih =>
    rw [removePset_cons]
    exact cmLe_trans (removePsetOne_cmLe self model id) (ih _ _)

theorem removePsetProp_cmLe (self : IfcPropertiesManager)
    (model : FragmentsGroup) (psetID propID : Nat) :
    cmLe self (self.removePsetProp model psetID propID).2 := by
  rw [IfcPropertiesManager.removePsetProp]
  cases h1 : model.getProperties psetID with
  | none => exact cmLe_refl self
  | some pset =>
    cases h2 : model.getProperties propID with
    | none => exact cmLe_refl self
    | some prop =>
      simp only []
      by_cases ht : pset.type = IFCPROPERTYSET
      · rw [if_pos ht]
        exact registerChange_cmLe self model [psetID, propID]
      · rw [if_neg ht]
        exact cmLe_refl self

theorem addElementToPset_cmLe (self : IfcPropertiesManager)
    (model : FragmentsGroup) (psetID : Nat) (elementID : List Nat) :
    cmLe self (self.addElementToPset model psetID elementID).2 := by
  rw [IfcPropertiesManager.addElementToPset]
  cases h1 : IfcPropertiesUtils.getPsetRel model psetID with
  | none => exact cmLe_refl self
  | some relID =>
    simp only []
    cases h2 : model.getProperties relID with
    | none => exact cmLe_refl self
    | some rel =>
      simp only []
      have hcm : ((elementID.foldl
          (fun (acc : Entity × IfcPropertiesManager) expressID =>
            ({ acc.1 with
               RelatedObjects :=
                 acc.1.RelatedObjects ++ [PropRef.handle expressID] },
             { acc.2 with
               onElementToPsetLog :=
                 acc.2.onElementToPsetLog ++
                   [(model.uuid, psetID, expressID)] }))
          (rel, self)).2).changeMap = self.changeMap := by
        refine foldl_preserves (fun acc => acc.2.changeMap) _ ?_ elementID
          (rel, self)
        intro b a
        rfl
      exact cmLe_trans (cmLe_of_changeMap_eq hcm.symm)
        (registerChange_cmLe _ model [psetID])

theorem addPropToPset_cmLe (self : IfcPropertiesManager)
    (model : FragmentsGroup) (psetID : Nat) (propID : List Nat) :
    cmLe self (self.addPropToPset model psetID propID).2 := by
  rw [IfcPropertiesManager.addPropToPset]
  cases h1 : model.getProperties psetID with
  | none => exact cmLe_refl self
  | some pset =>
    simp only []
    have hcm : ((propID.foldl
        (fun (acc : Entity × IfcPropertiesManager) expressID =>
          if acc.1.HasProperties.contains (PropRef.rawNum expressID) then acc
          else
            ({ acc.1 with
               HasProperties :=
                 acc.1.HasProperties ++ [PropRef.handle expressID] },
             { acc.2 with
               onPropToPsetLog :=
                 acc.2.onPropToPsetLog ++ [(model.uuid, psetID, expressID)] }))
        (pset, self)).2).changeMap = self.changeMap := by
      refine foldl_preserves (fun acc => acc.2.changeMap) _ ?_ propID (pset, self)
      intro b a
      split
      · rfl
      · rfl
    exact cmLe_trans (cmLe_of_changeMap_eq hcm.symm)
      (registerChange_cmLe _ model [psetID])

theorem registerChange_changesOf_eq (self : IfcPropertiesManager)
    (model : FragmentsGroup) (ids : List Nat) (u : String)
    (hu : u = model.uuid) :
    (self.registerChange model ids).changesOf u =
      ids.foldl setAdd (self.changesOf u) := by
  subst hu
  exact registerChange_changesOf_self self model ids

/-- The C8/C9 fixture Pset: an `IfcPropertySet` at express ID 5 holding
one property handle (to 7). -/
def c8Pset : Entity :=
  { expressID := 5, type := IFCPROPERTYSET
    HasProperties := [PropRef.handle 7] }

/-- The C8 fixture property at express ID 7. -/
def c8Prop : Entity := { expressID := 7, type := IFCPROPERTYSINGLEVALUE }

/-- The C8 fixture relation at express ID 9, relating Pset 5. -/
def c8Rel : Entity :=
  { expressID := 9, type := IFCRELDEFINESBYPROPERTIES
    RelatingPropertyDefinition := some (Handle.mk 5) }

/-- The C8 fixture model. -/
def c8Model : FragmentsGroup :=
  { uuid := "m1"
    ifcMetadata := { schema := some "IFC4", maxExpressID := 20 }
    properties := [(5, c8Pset), (7, c8Prop), (9, c8Rel)] }

/-- C8 counterexample: `removePset` on Pset 5 deletes the member property
7 from the model (an express ID it touched) yet registers only the
relation id 9 and the Pset id 5 in `changeMap` — 7 is not recorded —
refuting the claim that each operation adds all the express IDs it
touched. -/
theorem c8_counterexample :
    ((mgrFx.removePset c8Model [5]).1.getProperties 7 = none) ∧
    (c8Model.getProperties 7 = some c8Prop) ∧
    (((mgrFx.removePset c8Model [5]).2.changesOf "m1").contains 7 = false) ∧
    ((mgrFx.removePset c8Model [5]).2.changesOf "m1" = [9, 5]) := by
  refine ⟨by decide, by decide, by decide, by decide⟩

theorem setData_one_delta (self : IfcPropertiesManager)
    (model : FragmentsGroup) (d : Entity) (hd : d.expressID ≠ 0) :
    (self.setData model [d]).2.changesOf model.uuid =
      setAdd (self.changesOf model.uuid) d.expressID ∧
    (self.setData model [d]).2.onDataChangedLog =
      self.onDataChangedLog ++ [(model.uuid, d.expressID)] := by
  rw [setData_cons_pos self model d [] hd]
  constructor
  · rw [show ((self.registerChange
        (model.setProperties d.expressID (some d)) [d.expressID]).setData
        (model.setProperties d.expressID (some d)) []).2 =
      self.registerChange (model.setProperties d.expressID (some d))
        [d.expressID] from rfl]
    rw [registerChange_changesOf_eq self
      (model.setProperties d.expressID (some d)) [d.expressID] model.uuid rfl]
    simp [List.foldl]
  · rfl

theorem removePsetOne_delta (self : IfcPropertiesManager)
    (model : FragmentsGroup) (psetID : Nat) (pset : Entity) (relID : Nat)
    (hpset : model.getProperties psetID = some pset)
    (htype : pset.type = IFCPROPERTYSET)
    (hrel : IfcPropertiesUtils.getPsetRel model psetID = some relID) :
    (self.removePsetOne model psetID).2.changesOf model.uuid =
      setAdd (setAdd (self.changesOf model.uuid) relID) psetID ∧
    (self.removePsetOne model psetID).2.onDataChangedLog =
      self.onDataChangedLog ++ [(model.uuid, relID), (model.uuid, psetID)] ∧
    (self.removePsetOne model psetID).2.onPsetRemovedLog =
      self.onPsetRemovedLog ++ [(model.uuid, psetID)] := by
  have heq : (self.removePsetOne model psetID).2 =
      ({ self.registerChange model [relID] with
         onPsetRemovedLog :=
           (self.registerChange model [relID]).onPsetRemovedLog ++
             [(model.uuid, psetID)] }).registerChange model [psetID] := by
    rw [IfcPropertiesManager.removePsetOne, hpset]
    simp only [if_pos htype, hrel]
  rw [heq]
  refine ⟨?_, ?_, ?_⟩
  · rw [registerChange_changesOf_eq _ model [psetID] model.uuid rfl]
    simp only [List.foldl]
    have hmid : ({ self.registerChange model [relID] with
        onPsetRemovedLog :=
          (self.registerChange model [relID]).onPsetRemovedLog ++
            [(model.uuid, psetID)] } :
        IfcPropertiesManager).changesOf model.uuid =
        (self.registerChange model [relID]).changesOf model.uuid := rfl
    rw [hmid, registerChange_changesOf_eq _ model [relID] model.uuid rfl]
    simp [List.foldl]
  · rw [registerChange_log]
    simp [registerChange_log]
  · rfl

theorem removePsetProp_delta (self : IfcPropertiesManager)
    (model : FragmentsGroup) (psetID propID : Nat) (pset prop : Entity)
    (h1 : model.getProperties psetID = some pset)
    (h2 : model.getProperties propID = some prop)
    (htype : pset.type = IFCPROPERTYSET) :
    (self.removePsetProp model psetID propID).2.changesOf model.uuid =
      setAdd (setAdd (self.changesOf model.uuid) psetID) propID ∧
    (self.removePsetProp model psetID propID).2.onDataChangedLog =
      self.onDataChangedLog ++ [(model.uuid, psetID), (model.uuid, propID)] := by
  have heq : (self.removePsetProp model psetID propID).2 =
      self.registerChange model [psetID, propID] := by
    rw [IfcPropertiesManager.removePsetProp, h1, h2]
    simp only [if_pos htype]
  rw [heq]
  constructor
  · rw [registerChange_changesOf_eq _ model [psetID, propID] model.uuid rfl]
    simp [List.foldl]
  · rw [registerChange_log]
    simp

theorem addElementToPset_delta (self : IfcPropertiesManager)
    (model : FragmentsGroup) (psetID relID : Nat) (rel : Entity) (eid : Nat)
    (hrel : IfcPropertiesUtils.getPsetRel model psetID = some relID)
    (hgr : model.getProperties relID = some rel) :
    (self.addElementToPset model psetID [eid]).2.changesOf model.uuid =
      setAdd (self.changesOf model.uuid) psetID ∧
    (self.addElementToPset model psetID [eid]).2.onDataChangedLog =
      self.onDataChangedLog ++ [(model.uuid, psetID)] ∧
    (self.addElementToPset model psetID [eid]).2.onElementToPsetLog =
      self.onElementToPsetLog ++ [(model.uuid, psetID, eid)] := by
  have heq : (self.addElementToPset model psetID [eid]).2 =
      ({ self with
         onElementToPsetLog :=
           self.onElementToPsetLog ++ [(model.uuid, psetID, eid)] }).registerChange
        model [psetID] := by
    rw [IfcPropertiesManager.addElementToPset, hrel]
    simp only [hgr, List.foldl]
  rw [heq]
  refine ⟨?_, ?_, ?_⟩
  · rw [registerChange_changesOf_eq _ model [psetID] model.uuid rfl]
    simp [List.foldl, IfcPropertiesManager.changesOf]
  · rw [registerChange_log]
    simp
  · rfl

theorem addPropToPset_delta (self : IfcPropertiesManager)
    (model : FragmentsGroup) (psetID : Nat) (pset : Entity) (pid : Nat)
    (h1 : model.getProperties psetID = some pset) :
    (self.addPropToPset model psetID [pid]).2.changesOf model.uuid =
      setAdd (self.changesOf model.uuid) psetID ∧
    (self.addPropToPset model psetID [pid]).2.onDataChangedLog =
      self.onDataChangedLog ++ [(model.uuid, psetID)] := by
  by_cases hc : pset.HasProperties.contains (PropRef.rawNum pid)
  · have heq : (self.addPropToPset model psetID [pid]).2 =
        self.registerChange model [psetID] := by
      rw [IfcPropertiesManager.addPropToPset, h1]
      simp only [List.foldl, if_pos hc]
    rw [heq]
    constructor
    · rw [registerChange_changesOf_eq _ model [psetID] model.uuid rfl]
      simp [List.foldl]
    · rw [registerChange_log]
      simp
  · have heq : (self.addPropToPset model psetID [pid]).2 =
        ({ self with
           onPropToPsetLog :=
             self.onPropToPsetLog ++ [(model.uuid, psetID, pid)] }).registerChange
          model [psetID] := by
      rw [IfcPropertiesManager.addPropToPset, h1]
      simp only [List.foldl, if_neg hc]
    rw [heq]
    constructor
    · rw [registerChange_changesOf_eq _ model [psetID] model.uuid rfl]
      simp [List.foldl, IfcPropertiesManager.changesOf]
    · rw [registerChange_log]
      simp

/-- C8 (amended): each mutating operation registers a specific set of
express IDs in `changeMap[model.uuid]` and triggers `onDataChanged` once
per registered ID: `setData` registers each saved entry with a truthy
express ID (the creation operations register through it); `removePset` on
an actual `IfcPropertySet` registers the relation ID (when found) and the
Pset ID — but not the member properties it also deletes;
`removePsetProp` registers the Pset ID and the property ID;
`addElementToPset` registers only the Pset ID (not the relation it
mutates); `addPropToPset` registers only the Pset ID. Change sets only
ever grow under these operations, and `dispose` empties the whole map. -/
theorem c8_change_tracking :
    (∀ (self : IfcPropertiesManager) (model : FragmentsGroup) (d : Entity),
      d.expressID ≠ 0 →
      (self.setData model [d]).2.changesOf model.uuid =
        setAdd (self.changesOf model.uuid) d.expressID ∧
      (self.setData model [d]).2.onDataChangedLog =
        self.onDataChangedLog ++ [(model.uuid, d.expressID)]) ∧
    (∀ (self : IfcPropertiesManager) (model : FragmentsGroup)
      (psetID : Nat) (pset : Entity) (relID : Nat),
      model.getProperties psetID = some pset →
      pset.type = IFCPROPERTYSET →
      IfcPropertiesUtils.getPsetRel model psetID = some relID →
      (self.removePsetOne model psetID).2.changesOf model.uuid =
        setAdd (setAdd (self.changesOf model.uuid) relID) psetID ∧
      (self.removePsetOne model psetID).2.onDataChangedLog =
        self.onDataChangedLog ++ [(model.uuid, relID), (model.uuid, psetID)] ∧
      (self.removePsetOne model psetID).2.onPsetRemovedLog =
        self.onPsetRemovedLog ++ [(model.uuid, psetID)]) ∧
    (∀ (self : IfcPropertiesManager) (model : FragmentsGroup)
      (psetID propID : Nat) (pset prop : Entity),
      model.getProperties psetID = some pset →
      model.getProperties propID = some prop →
      pset.type = IFCPROPERTYSET →
      (self.removePsetProp model psetID propID).2.changesOf model.uuid =
        setAdd (setAdd (self.changesOf model.uuid) psetID) propID ∧
      (self.removePsetProp model psetID propID).2.onDataChangedLog =
        self.onDataChangedLog ++
          [(model.uuid, psetID), (model.uuid, propID)]) ∧
    (∀ (self : IfcPropertiesManager) (model : FragmentsGroup)
      (psetID relID : Nat) (rel : Entity) (eid : Nat),
      IfcPropertiesUtils.getPsetRel model psetID = some relID →
      model.getProperties relID = some rel →
      (self.addElementToPset model psetID [eid]).2.changesOf model.uuid =
        setAdd (self.changesOf model.uuid) psetID ∧
      (self.addElementToPset model psetID [eid]).2.onDataChangedLog =
        self.onDataChangedLog ++ [(model.uuid, psetID)] ∧
      (self.addElementToPset model psetID [eid]).2.onElementToPsetLog =
        self.onElementToPsetLog ++ [(model.uuid, psetID, eid)]) ∧
    (∀ (self : IfcPropertiesManager) (model : FragmentsGroup)
      (psetID : Nat) (pset : Entity) (pid : Nat),
      model.getProperties psetID = some pset →
      (self.addPropToPset model psetID [pid]).2.changesOf model.uuid =
        setAdd (self.changesOf model.uuid) psetID ∧
      (self.addPropToPset model psetID [pid]).2.onDataChangedLog =
        self.onDataChangedLog ++ [(model.uuid, psetID)]) ∧
    (∀ (self : IfcPropertiesManager) (model : FragmentsGroup)
      (l : List Entity), cmLe self (self.setData model l).2) ∧
    (∀ (self : IfcPropertiesManager) (model : FragmentsGroup)
      (ids : List Nat), cmLe self (self.removePset model ids).2) ∧
    (∀ (self : IfcPropertiesManager) (model : FragmentsGroup)
      (psetID propID : Nat),
      cmLe self (self.removePsetProp model psetID propID).2) ∧
    (∀ (self : IfcPropertiesManager) (model : FragmentsGroup)
      (psetID : Nat) (els : List Nat),
      cmLe self (self.addElementToPset model psetID els).2) ∧
    (∀ (self : IfcPropertiesManager) (model : FragmentsGroup)
      (psetID : Nat) (pids : List Nat),
      cmLe self (self.addPropToPset model psetID pids).2) ∧
    (∀ self : IfcPropertiesManager, (self.dispose).changeMap = []) := by
  refine ⟨?_, ?_, ?_, ?_, ?_, ?_, ?_, ?_, ?_, ?_, ?_⟩
  · intro self model d hd
    exact setData_one_delta self model d hd
  · intro self model psetID pset relID hpset htype hrel
    exact removePsetOne_delta self model psetID pset relID hpset htype hrel
  · intro self model psetID propID pset prop h1 h2 htype
    exact removePsetProp_delta self model psetID propID pset prop h1 h2 htype
  · intro self model psetID relID rel eid hrel hgr
    exact addElementToPset_delta self model psetID relID rel eid hrel hgr
  · intro self model psetID pset pid h1
    exact addPropToPset_delta self model psetID pset pid h1
  · intro self model l
    exact setData_cmLe self model l
  · intro self model ids
    exact removePset_cmLe self model ids
  · intro self model psetID propID
    exact removePsetProp_cmLe self model psetID propID
  · intro self model psetID els
    exact addElementToPset_cmLe self model psetID els
  · intro self model psetID pids
    exact addPropToPset_cmLe self model psetID pids
  · intro self
    rfl

/-- C8 witness: every part of the amended theorem applied at the concrete
fixture model (Pset 5 with property 7 and relation 9). -/
theorem c8_change_tracking_witness :
    ((mgrFx.setData c8Model [c8Prop]).2.changesOf c8Model.uuid =
      setAdd (mgrFx.changesOf c8Model.uuid) c8Prop.expressID ∧
     (mgrFx.setData c8Model [c8Prop]).2.onDataChangedLog =
      mgrFx.onDataChangedLog ++ [(c8Model.uuid, c8Prop.expressID)]) ∧
    ((mgrFx.removePsetOne c8Model 5).2.changesOf c8Model.uuid =
      setAdd (setAdd (mgrFx.changesOf c8Model.uuid) 9) 5 ∧
     (mgrFx.removePsetOne c8Model 5).2.onDataChangedLog =
      mgrFx.onDataChangedLog ++ [(c8Model.uuid, 9), (c8Model.uuid, 5)] ∧
     (mgrFx.removePsetOne c8Model 5).2.onPsetRemovedLog =
      mgrFx.onPsetRemovedLog ++ [(c8Model.uuid, 5)]) ∧
    ((mgrFx.removePsetProp c8Model 5 7).2.changesOf c8Model.uuid =
      setAdd (setAdd (mgrFx.changesOf c8Model.uuid) 5) 7 ∧
     (mgrFx.removePsetProp c8Model 5 7).2.onDataChangedLog =
      mgrFx.onDataChangedLog ++ [(c8Model.uuid, 5), (c8Model.uuid, 7)]) ∧
    ((mgrFx.addElementToPset c8Model 5 [3]).2.changesOf c8Model.uuid =
      setAdd (mgrFx.changesOf c8Model.uuid) 5 ∧
     (mgrFx.addElementToPset c8Model 5 [3]).2.onDataChangedLog =
      mgrFx.onDataChangedLog ++ [(c8Model.uuid, 5)] ∧
     (mgrFx.addElementToPset c8Model 5 [3]).2.onElementToPsetLog =
      mgrFx.onElementToPsetLog ++ [(c8Model.uuid, 5, 3)]) ∧
    ((mgrFx.addPropToPset c8Model 5 [3]).2.changesOf c8Model.uuid =
      setAdd (mgrFx.changesOf c8Model.uuid) 5 ∧
     (mgrFx.addPropToPset c8Model 5 [3]).2.onDataChangedLog =
      mgrFx.onDataChangedLog ++ [(c8Model.uuid, 5)]) ∧
    cmLe mgrFx (mgrFx.removePset c8Model [5]).2 ∧
    (mgrFx.dispose).changeMap = [] := by
  have h := c8_change_tracking
  exact ⟨h.1 mgrFx c8Model c8Prop (by decide),
    h.2.1 mgrFx c8Model 5 c8Pset 9 (by decide) (by decide) (by decide),
    h.2.2.1 mgrFx c8Model 5 7 c8Pset c8Prop (by decide) (by decide) (by decide),
    h.2.2.2.1 mgrFx c8Model 5 9 c8Rel 3 (by decide) (by decide),
    h.2.2.2.2.1 mgrFx c8Model 5 c8Pset 3 (by decide),
    h.2.2.2.2.2.2.1 mgrFx c8Model [5],
    h.2.2.2.2.2.2.2.2.2.2 mgrFx⟩
